import Mathlib

/-!
Verification development for the behave Gherkin parser
(src/behave/parser.py).  The parser is shallowly embedded: each
`Parser.action_*` method and helper becomes a Lean function over an
explicit parser-state record, Python exceptions become an error type
threaded through `Except`, and the mutable AST under construction is
represented structurally (the aliased `self.statement`,
`self.scenario_container`, `self.rule` and `self.examples` references
of the Python code become small reference enums interpreted against the
state; the helper functions document which Python attribute access each
one implements).

The modules `behave/model.py` and `behave/i18n.py` are not part of the
sources; the AST node shapes and the keyword table are modelled from
the specification (see the doc comments of the corresponding
definitions).  Only the whole-file entry point (`Parser.parse`, variant
"feature") is embedded; the rule/scenario/steps entry points are not
needed by the claims.

Python string operations are embedded via `List Char`:
`str.strip`/`lstrip`/`rstrip` strip the whitespace characters
recognised by Python, `str.split()` splits on whitespace runs,
`str.splitlines` splits on LF, CRLF and CR (Python additionally treats
some rare control characters as line breaks; none of them matter here
since such lines strip to blank lines either way), and slicing is
`take`/`drop` on the character list (Python indexes strings by code
point, as does `String.toList`).
-/

namespace Behave

/-- Whitespace characters stripped by Python's `str.strip()`. -/
def isPySpace (c : Char) : Bool :=
  c = ' ' || c = '\t' || c = '\n' || c = '\r' || c = '\x0b' || c = '\x0c'

/-- Python `s.lstrip()`. -/
def pyLstrip (s : String) : String := ⟨s.toList.dropWhile isPySpace⟩

/-- Python `s.rstrip()`. -/
def pyRstrip (s : String) : String :=
  ⟨(s.toList.reverse.dropWhile isPySpace).reverse⟩

/-- Python `s.strip()`. -/
def pyStrip (s : String) : String :=
  ⟨((s.toList.dropWhile isPySpace).reverse.dropWhile isPySpace).reverse⟩

/-- Python `s.startswith(pre)`. -/
def pyStartsWith (s pre : String) : Bool := pre.toList.isPrefixOf s.toList

/-- Python `s[n:]` (slicing by code points). -/
def pyDrop (s : String) (n : Nat) : String := ⟨s.toList.drop n⟩

/-- Python `s[:n]` (slicing by code points). -/
def pyTake (s : String) (n : Nat) : String := ⟨s.toList.take n⟩

/-- Python `s.lower()` (ASCII case mapping suffices for the keywords used). -/
def pyLower (s : String) : String := ⟨s.toList.map Char.toLower⟩

/-- Python `s.upper()` (ASCII case mapping suffices for the step types used). -/
def pyUpper (s : String) : String := ⟨s.toList.map Char.toUpper⟩

/-- Helper for `pySplitWs`: accumulate the current word (reversed). -/
def wsWordsAux : List Char → List Char → List (List Char)
  | [], acc => if acc.isEmpty then [] else [acc.reverse]
  | c :: cs, acc =>
      if isPySpace c then
        if acc.isEmpty then wsWordsAux cs [] else acc.reverse :: wsWordsAux cs []
      else wsWordsAux cs (c :: acc)

/-- Python `s.split()` (split on whitespace runs, no empty words). -/
def pySplitWs (s : String) : List String := (wsWordsAux s.toList []).map (⟨·⟩)

/-- Helper for `pySplitLines`: accumulate the current line (reversed). -/
def splitLinesAux : List Char → List Char → List (List Char)
  | [], acc => if acc.isEmpty then [] else [acc.reverse]
  | '\r' :: '\n' :: cs, acc => acc.reverse :: splitLinesAux cs []
  | '\n' :: cs, acc => acc.reverse :: splitLinesAux cs []
  | '\r' :: cs, acc => acc.reverse :: splitLinesAux cs []
  | c :: cs, acc => splitLinesAux cs (c :: acc)

/-- Python `s.splitlines()` for LF, CRLF and CR terminators; no trailing
empty line is produced for a trailing terminator. -/
def pySplitLines (s : String) : List String := (splitLinesAux s.toList []).map (⟨·⟩)

/-- Python `cell.replace("\\|", "|")`: left-to-right, non-overlapping. -/
def replEscPipe : List Char → List Char
  | '\\' :: '|' :: cs => '|' :: replEscPipe cs
  | c :: cs => c :: replEscPipe cs
  | [] => []

/-- Python `re.split(r"(?<!\\)\|", s)`: split at every `|` whose directly
preceding character is not a backslash.  The accumulator holds the current
cell reversed; its head is exactly the character preceding the candidate
pipe (when the accumulator is empty the preceding character is a splitting
pipe or the start of the string, and both of those split). -/
def splitUPAux : List Char → List Char → List (List Char)
  | [], acc => [acc.reverse]
  | '|' :: cs, acc =>
      if acc.head? = some '\\' then splitUPAux cs ('|' :: acc)
      else acc.reverse :: splitUPAux cs []
  | c :: cs, acc => splitUPAux cs (c :: acc)

/-- Split a table-row interior on unescaped pipes. -/
def splitUnescapedPipe (s : String) : List String := (splitUPAux s.toList []).map (⟨·⟩)

/-- Number of leading whitespace characters of a line.  The source computes
`line.index(stripped[0])` where `stripped = line.lstrip()`; since
`stripped[0]` is not whitespace its first occurrence in `line` is exactly at
the end of the leading whitespace run, so the two agree whenever the source
evaluates it (the line has a non-whitespace character). -/
def countLeadingWs (line : String) : Nat := (line.toList.takeWhile isPySpace).length

/-- Environment switch `BEHAVE_STRIP_STEPS_WITH_TRAILING_COLON`
(src/behave/parser.py:63); the default environment value is "no". -/
def STRIP_STEPS_WITH_TRAILING_COLON : Bool := false

-- ---------------------------------------------------------------------------
-- AST model.
-- ---------------------------------------------------------------------------

/-- Modelled from the spec: behave/model.py is not under src/.  `model.Tag`
(a tagged word without its `@` sign, plus its source line, spec section 3). -/
structure Tag where
  name : String
  line : Nat
deriving DecidableEq, Repr

/-- Modelled from the spec: a table row records its cells and source line
(spec section 3, "Each row records its source line"). -/
structure Row where
  cells : List String
  line : Nat
deriving DecidableEq, Repr

/-- Modelled from the spec: `model.Table(headings, line)` with `add_row`
appending rows (spec section 3). -/
structure Table where
  headings : List String
  line : Nat
  rows : List Row := []
deriving DecidableEq, Repr

/-- Modelled from the spec: `model.Text` doc-string payload (a string, a
content type defaulting to text/plain, and the opener's line). -/
structure DocText where
  text : String
  contentType : String
  line : Nat
deriving DecidableEq, Repr

/-- Modelled from the spec: `model.Step(filename, line, keyword, step_type,
name)` with optional doc-string text and optional data table. -/
structure Step where
  line : Nat
  keyword : String
  step_type : String
  name : String
  text : Option DocText := none
  table : Option Table := none
deriving DecidableEq, Repr

/-- Modelled from the spec: `model.Examples(filename, line, keyword, name,
tags)` whose table is attached when its table block closes. -/
structure Examples where
  line : Nat
  keyword : String
  name : String
  tags : List Tag := []
  table : Option Table := none
deriving DecidableEq, Repr

/-- Modelled from the spec: `model.Scenario` / `model.ScenarioOutline`
(spec section 3; the outline is a subtype of Scenario with an examples
payload, embedded here with an `isOutline` flag).  Named `Scenario0` in this
development. -/
structure Scenario0 where
  line : Nat
  keyword : String
  name : String
  tags : List Tag := []
  description : List String := []
  steps : List Step := []
  examples : List Examples := []
  isOutline : Bool := false
deriving DecidableEq, Repr

/-- Modelled from the spec: `model.Background(filename, line, keyword,
name)`.  `inherited_steps` exposes the parent Feature's background steps for
a Rule's background (spec sections 3 and 9 on background inheritance); for a
Feature's own background it is empty. -/
structure Background where
  line : Nat
  keyword : String
  name : String
  steps : List Step := []
  description : List String := []
  inherited_steps : List Step := []
deriving DecidableEq, Repr

/-- Modelled from the spec: `model.Rule`.  A freshly built Rule carries a
default Background without steps whose `inherited_steps` are the Feature's
background steps (parser hint at src/behave/parser.py:356: "Rule may have
default background w/o steps"); `inheritedBackgroundSteps` records those
steps so that a later `Background:` statement of the Rule inherits them
too. -/
structure Rule where
  line : Nat
  keyword : String
  name : String
  tags : List Tag := []
  description : List String := []
  background : Option Background := none
  scenarios : List Scenario0 := []
  inheritedBackgroundSteps : List Step := []
deriving DecidableEq, Repr

/-- Modelled from the spec: `model.Feature`.  `parserRefSet` records whether
the Python attribute `feature.parser` has been assigned the parser object
that produced the feature (`Parser.parse`, src/behave/parser.py:323); the
reference itself cannot be stored structurally because the parser state in
turn holds the feature. -/
structure Feature where
  line : Nat
  keyword : String
  name : String
  tags : List Tag := []
  language : String := "en"
  description : List String := []
  background : Option Background := none
  scenarios : List Scenario0 := []
  rules : List Rule := []
  parserRefSet : Bool := false
deriving DecidableEq, Repr

/-- Replace the last element of a list (identity on the empty list; the
callers correspond to Python `list[-1]` accesses that are guarded). -/
def updateLast (f : α → α) : List α → List α
  | [] => []
  | [a] => [f a]
  | a :: b :: rest => a :: updateLast f (b :: rest)

-- ---------------------------------------------------------------------------
-- Keyword table.
-- ---------------------------------------------------------------------------

/-- Modelled from the spec: behave/i18n.py is not under src/.  The English
keyword table: per concept, the ordered surface aliases (spec sections 4.1
and 4.2).  Block keyword aliases are matched with a following colon; step
keyword aliases carry a trailing space (spec section 4.1: a trailing space
requires a word separator after the keyword), and the generic `*` bullet is
an alias of every step type. -/
def langEn : String → List String
  | "feature" => ["Feature"]
  | "rule" => ["Rule"]
  | "background" => ["Background"]
  | "scenario" => ["Scenario", "Example"]
  | "scenario_outline" => ["Scenario Outline", "Scenario Template"]
  | "examples" => ["Examples"]
  | "given" => ["* ", "Given "]
  | "when" => ["* ", "When "]
  | "then" => ["* ", "Then "]
  | "and" => ["* ", "And "]
  | "but" => ["* ", "But "]
  | _ => []

/-- Modelled from the spec: the static language table `i18n.languages`
keyed by language tag; unknown tags are not keys and looking one up fails
with `LanguageNotSupported` (spec sections 4.1 and 6).  Only "en" is
modelled; the claims about unknown languages quantify over tags that are
not keys. -/
def i18n_languages (lang : String) : Option (String → List String) :=
  if lang = "en" then some langEn else none

-- ---------------------------------------------------------------------------
-- Parser state.
-- ---------------------------------------------------------------------------

/-- Parse failures.  `raised` embeds a direct `raise ParserError(msg, line)`
(no oracle reason is ever passed on those paths); `rejected` embeds the
raise in `Parser.action` after a state handler returned a falsy value,
carrying the lower-cased state name and the failure oracle's reason;
`languageNotSupported` embeds the failed keyword-table lookup for an unknown
language (modelled from the spec, section 4.1); `uncaught` embeds a Python
exception other than ParserError escaping from the parser (attribute/index
errors on code paths the state machine cannot reach). -/
inductive PErr where
  | raised (msg : String) (line : Nat)
  | rejected (stateName : String) (line : Nat) (reason : Option String)
  | languageNotSupported (lang : String)
  | uncaught (msg : String) (line : Nat)
deriving DecidableEq, Repr

/-- Parser states (class `State`, src/behave/parser.py:215). -/
inductive ParseState where
  | initialSt | featureSt | ruleSt | backgroundSt | scenarioSt
  | taggableSt | stepsSt | stepSt | multilineSt | tableSt
deriving DecidableEq, Repr

/-- Python `self.state.name.lower()`. -/
def stateNameLower : ParseState → String
  | .initialSt => "initial"
  | .featureSt => "feature"
  | .ruleSt => "rule"
  | .backgroundSt => "background"
  | .scenarioSt => "scenario"
  | .taggableSt => "taggable_statement"
  | .stepsSt => "steps"
  | .stepSt => "step"
  | .multilineSt => "multiline_text"
  | .tableSt => "table"

/-- Interpretation of the Python reference `self.scenario_container`
(either the feature, the current rule, or None). -/
inductive ContRef where
  | noneC | featureC | ruleC
deriving DecidableEq, Repr

/-- Interpretation of the Python reference `self.statement`: None, the
current rule, the current container's background, the last scenario added
to the current container, or a free-standing scenario that was built while
no container existed. -/
inductive StmtRef where
  | noneR | ruleR | backgroundR | scenarioR | freeR
deriving DecidableEq, Repr

/-- The mutable parser state (`Parser.__init__` / `Parser.reset`,
src/behave/parser.py:234-286).  `currentRule` holds the rule the aliased
`self.rule` points at; closed rules are flushed into `feature.rules` when a
new rule is built or when parsing finishes (`feature.add_rule` happens at
build time in the source, but `feature.rules` is only observed at the end,
so the deferred flush is observationally equivalent).  `ruleInFeature`
records whether `feature.add_rule` was executed for the current rule.
`examplesOpen` records whether `self.examples` is set; the Examples object
it aliases is always the last element of the current statement's examples
list.  `freeScenario` holds a scenario built while the container was None
(unreachable from the whole-file entry point, kept for totality). -/
structure PState where
  language : Option String := none
  keywords : String → List String := langEn
  variant : String := "feature"
  state : ParseState := .initialSt
  line : Nat := 0
  last_step_type : Option String := none
  multiline_start : Nat := 0
  multiline_leading : Nat := 0
  multiline_terminator : Option String := none
  filename : Option String := none
  scenario_container : ContRef := .noneC
  feature : Option Feature := none
  currentRule : Option Rule := none
  ruleInFeature : Bool := false
  statement : StmtRef := .noneR
  freeScenario : Option Scenario0 := none
  tags : List Tag := []
  lines : List String := []
  table : Option Table := none
  examplesOpen : Bool := false

/-- State after `Parser.reset` with the resolved language and keyword
table (src/behave/parser.py:266-286). -/
def resetState (lang : String) (kws : String → List String) : PState :=
  { language := some lang, keywords := kws }

/-- `Parser.reset`: resolve the language (defaulting to "en") and look the
keyword table up; an unknown language fails the lookup
(`LanguageNotSupported`, modelled from the spec). -/
def reset (language : Option String) : Except PErr PState :=
  let lang := language.getD "en"
  match i18n_languages lang with
  | some kws => .ok (resetState lang kws)
  | none => .error (.languageNotSupported lang)

-- ---------------------------------------------------------------------------
-- Container / statement access helpers.
-- ---------------------------------------------------------------------------

/-- Python `self.feature.background.steps` for building a rule's inherited
background steps (empty when there is no feature or no background). -/
def featureBackgroundSteps (st : PState) : List Step :=
  match st.feature with
  | some ft => match ft.background with
    | some bg => bg.steps
    | none => []
  | none => []

/-- Python `self.scenario_container.background` (None when the container is
None). -/
def containerBackground (st : PState) : Option Background :=
  match st.scenario_container with
  | .noneC => none
  | .featureC => match st.feature with
    | some ft => ft.background
    | none => none
  | .ruleC => match st.currentRule with
    | some r => r.background
    | none => none

/-- Python `self.scenario_container.scenarios` (empty when the container is
None; only its truthiness is ever used in that case). -/
def containerScenarios (st : PState) : List Scenario0 :=
  match st.scenario_container with
  | .noneC => []
  | .featureC => match st.feature with
    | some ft => ft.scenarios
    | none => []
  | .ruleC => match st.currentRule with
    | some r => r.scenarios
    | none => []

/-- Python `self.scenario_container.add_background(background)`.  For a
Feature the background is stored as given; for a Rule the new background
inherits the feature's background steps (spec sections 3 and 9: a rule's
background exposes the parent feature's background steps as inherited
steps). -/
def containerAddBackground (st : PState) (bg : Background) : Except PErr PState :=
  match st.scenario_container with
  | .noneC => .error (.uncaught "AttributeError: NoneType has no add_background" st.line)
  | .featureC => match st.feature with
    | some ft => .ok { st with feature := some { ft with background := some bg } }
    | none => .error (.uncaught "AttributeError: NoneType has no add_background" st.line)
  | .ruleC => match st.currentRule with
    | some r =>
        let bg' : Background := { bg with inherited_steps := r.inheritedBackgroundSteps }
        .ok { st with currentRule := some { r with background := some bg' } }
    | none => .error (.uncaught "AttributeError: NoneType has no add_background" st.line)

/-- Python `self.scenario_container.add_scenario(scenario)` (append to the
container's scenario list). -/
def containerAddScenario0 (st : PState) (sc : Scenario0) : Except PErr PState :=
  match st.scenario_container with
  | .noneC => .error (.uncaught "AttributeError: NoneType has no add_scenario" st.line)
  | .featureC => match st.feature with
    | some ft => .ok { st with feature := some { ft with scenarios := ft.scenarios ++ [sc] } }
    | none => .error (.uncaught "AttributeError: NoneType has no add_scenario" st.line)
  | .ruleC => match st.currentRule with
    | some r => .ok { st with currentRule := some { r with scenarios := r.scenarios ++ [sc] } }
    | none => .error (.uncaught "AttributeError: NoneType has no add_scenario" st.line)

/-- Update the scenario object `self.statement` aliases when the statement
is the container's most recently added scenario. -/
def withLastScenario0 (st : PState) (f : Scenario0 → Scenario0) : Except PErr PState :=
  match st.scenario_container with
  | .noneC => .error (.uncaught "AttributeError: no container scenario" st.line)
  | .featureC => match st.feature with
    | some ft => .ok { st with feature := some { ft with scenarios := updateLast f ft.scenarios } }
    | none => .error (.uncaught "AttributeError: no container scenario" st.line)
  | .ruleC => match st.currentRule with
    | some r => .ok { st with currentRule := some { r with scenarios := updateLast f r.scenarios } }
    | none => .error (.uncaught "AttributeError: no container scenario" st.line)

/-- Update the background object `self.statement` aliases (the current
container's background). -/
def withContainerBackground (st : PState) (f : Background → Background) : Except PErr PState :=
  match st.scenario_container with
  | .noneC => .error (.uncaught "AttributeError: no container background" st.line)
  | .featureC => match st.feature with
    | some ft => match ft.background with
      | some bg => .ok { st with feature := some { ft with background := some (f bg) } }
      | none => .error (.uncaught "AttributeError: no container background" st.line)
    | none => .error (.uncaught "AttributeError: no container background" st.line)
  | .ruleC => match st.currentRule with
    | some r => match r.background with
      | some bg => .ok { st with currentRule := some { r with background := some (f bg) } }
      | none => .error (.uncaught "AttributeError: no container background" st.line)
    | none => .error (.uncaught "AttributeError: no container background" st.line)

/-- Python read of `self.statement.steps`. -/
def statementSteps (st : PState) : Except PErr (List Step) :=
  match st.statement with
  | .noneR => .error (.uncaught "AttributeError: NoneType has no steps" st.line)
  | .ruleR => .error (.uncaught "AttributeError: Rule has no steps" st.line)
  | .backgroundR => match containerBackground st with
    | some bg => .ok bg.steps
    | none => .error (.uncaught "AttributeError: no container background" st.line)
  | .scenarioR => match st.scenario_container with
    | .noneC => .error (.uncaught "AttributeError: no container scenario" st.line)
    | .featureC => match st.feature with
      | some ft => match ft.scenarios.getLast? with
        | some sc => .ok sc.steps
        | none => .error (.uncaught "AttributeError: no container scenario" st.line)
      | none => .error (.uncaught "AttributeError: no container scenario" st.line)
    | .ruleC => match st.currentRule with
      | some r => match r.scenarios.getLast? with
        | some sc => .ok sc.steps
        | none => .error (.uncaught "AttributeError: no container scenario" st.line)
      | none => .error (.uncaught "AttributeError: no container scenario" st.line)
  | .freeR => match st.freeScenario with
    | some sc => .ok sc.steps
    | none => .error (.uncaught "AttributeError: NoneType has no steps" st.line)

/-- Python mutation of `self.statement.steps` (append paths).  Backgrounds
and scenarios have steps; a Rule or None statement is a Python attribute
error (unreachable from the state machine). -/
def withStatementSteps (st : PState) (f : List Step → List Step) : Except PErr PState :=
  match st.statement with
  | .noneR => .error (.uncaught "AttributeError: NoneType has no steps" st.line)
  | .ruleR => .error (.uncaught "AttributeError: Rule has no steps" st.line)
  | .backgroundR => withContainerBackground st (fun bg => { bg with steps := f bg.steps })
  | .scenarioR => withLastScenario0 st (fun sc => { sc with steps := f sc.steps })
  | .freeR => match st.freeScenario with
    | some sc => .ok { st with freeScenario := some { sc with steps := f sc.steps } }
    | none => .error (.uncaught "AttributeError: NoneType has no steps" st.line)

/-- Python mutation of `self.statement.steps[-1]` (attaching a doc string or
a data table); an empty step list is a Python index error (unreachable:
those paths are guarded by a non-empty check in `action_steps`). -/
def withStatementLastStep (st : PState) (f : Step → Step) : Except PErr PState :=
  match statementSteps st with
  | .error e => .error e
  | .ok [] => .error (.uncaught "IndexError: steps is empty" st.line)
  | .ok (_ :: _) => withStatementSteps st (updateLast f)

/-- Python mutation of `self.statement.description`. -/
def withStatementDescription (st : PState) (f : List String → List String) : Except PErr PState :=
  match st.statement with
  | .noneR => .error (.uncaught "AttributeError: NoneType has no description" st.line)
  | .ruleR => match st.currentRule with
    | some r => .ok { st with currentRule := some { r with description := f r.description } }
    | none => .error (.uncaught "AttributeError: NoneType has no description" st.line)
  | .backgroundR => withContainerBackground st (fun bg => { bg with description := f bg.description })
  | .scenarioR => withLastScenario0 st (fun sc => { sc with description := f sc.description })
  | .freeR => match st.freeScenario with
    | some sc => .ok { st with freeScenario := some { sc with description := f sc.description } }
    | none => .error (.uncaught "AttributeError: NoneType has no description" st.line)

/-- Python `isinstance(self.statement, model.ScenarioOutline)`. -/
def stmtIsOutline (st : PState) : Bool :=
  match st.statement with
  | .scenarioR => match st.scenario_container with
    | .noneC => false
    | .featureC => match st.feature with
      | some ft => match ft.scenarios.getLast? with
        | some sc => sc.isOutline
        | none => false
      | none => false
    | .ruleC => match st.currentRule with
      | some r => match r.scenarios.getLast? with
        | some sc => sc.isOutline
        | none => false
      | none => false
  | .freeR => match st.freeScenario with
    | some sc => sc.isOutline
    | none => false
  | _ => false

/-- Python mutation of `self.statement.examples` (the statement has been
checked to be a scenario outline before these paths run). -/
def withStatementExamples (st : PState) (f : List Examples → List Examples) : Except PErr PState :=
  match st.statement with
  | .scenarioR => withLastScenario0 st (fun sc => { sc with examples := f sc.examples })
  | .freeR => match st.freeScenario with
    | some sc => .ok { st with freeScenario := some { sc with examples := f sc.examples } }
    | none => .error (.uncaught "AttributeError: NoneType has no examples" st.line)
  | _ => .error (.uncaught "AttributeError: statement has no examples" st.line)

/-- The doc-string payload the multiline close of state `st` attaches
(src/behave/parser.py:726-727): the captured lines joined with a single
newline, content type text/plain, and the opener's line. -/
def mlText (st : PState) : DocText :=
  { text := String.intercalate "\n" st.lines, contentType := "text/plain",
    line := st.multiline_start }

/-- `Parser._normalize_step_name` (src/behave/parser.py:465-467): strips a
single trailing colon when the environment switch is on (it is off by
default, so this is the identity). -/
def normalize_step_name (stp : Step) : Step :=
  if STRIP_STEPS_WITH_TRAILING_COLON && stp.name.endsWith ":" then
    { stp with name := pyTake stp.name (stp.name.length - 1) }
  else stp

-- ---------------------------------------------------------------------------
-- Keyword matching, tags, steps.
-- ---------------------------------------------------------------------------

/-- `Parser.match_keyword` (src/behave/parser.py:794-801): the first alias
`a` of the concept such that the line starts with `a ++ ":"`.  The source's
fallback for an unset keyword table is omitted: `reset` always installs a
table before any line is processed. -/
def match_keyword (st : PState) (concept : String) (line : String) : Option String :=
  (st.keywords concept).find? (fun a => pyStartsWith line (a ++ ":"))

/-- `Parser.parse_tags` (src/behave/parser.py:818-844), word loop: a word
starting with `@` contributes its one-`@`-stripped form, a word starting
with `#` ends the scan (trailing comment), any other word raises a
ParserError.  `line` is only used in the error message. -/
def tagWords (line : String) (ln : Nat) : List String → Except PErr (List Tag)
  | [] => .ok []
  | w :: ws =>
      if pyStartsWith w "@" then
        match tagWords line ln ws with
        | .ok ts => .ok (⟨pyDrop w 1, ln⟩ :: ts)
        | .error e => .error e
      else if pyStartsWith w "#" then .ok []
      else .error (.raised ("tag: " ++ w ++ " (line: " ++ line ++ ")") ln)

/-- `Parser.parse_tags` (src/behave/parser.py:818-844).  A line that does
not start with `@` hits a `raise ParserError(message)` that omits the
mandatory `line` argument, i.e. a Python TypeError (unreachable from the
state machine, whose callers check for the `@` first). -/
def parse_tags (st : PState) (line : String) : Except PErr (List Tag) :=
  if pyStartsWith line "@" then tagWords line st.line (pySplitWs line)
  else .error (.uncaught ("TypeError: ParserError() missing argument line; BAD_TAG-LINE: " ++ line) st.line)

/-- The keyword scan of `Parser.parse_step` (src/behave/parser.py:846-854):
the first pair of a step type (in the order given, when, then, and, but)
and one of its aliases that prefixes the line, case-sensitively or
case-insensitively. -/
def findStepKeyword (kws : String → List String) (line : String) : Option (String × String) :=
  ["given", "when", "then", "and", "but"].findSome? fun stype =>
    (kws stype).findSome? fun kw =>
      if pyStartsWith line kw || pyStartsWith (pyLower line) (pyLower kw) then some (stype, kw)
      else none

/-- `Parser._select_last_background_step_type` (src/behave/parser.py:885-907):
the step type of the last of the container's background steps, falling back
to the background's inherited steps when it has no steps of its own. -/
def select_last_background_step_type (st : PState) : Option String :=
  match containerBackground st with
  | none => none
  | some bg =>
      let steps := if bg.steps.isEmpty then bg.inherited_steps else bg.steps
      match steps.getLast? with
      | some stp => some stp.step_type
      | none => none

/-- `Parser.parse_step` (src/behave/parser.py:846-883).  Returns `none` when
no step keyword matches, otherwise a Step together with the updated state.
The resolution mirrors the source's branch ladder, merged over the two
cases of `last_step_type`: when it is known, the `*`-inherit branch and the
and/but branch both resolve to it without changing it, and every other
keyword overwrites it; when it is unknown, the `*`-inherit branch is not
taken, and/but fall back to the applicable background's last step type
(raising when that is absent too), and every other keyword (the plain
keywords and the `*` bullet, which the scan returns under the first step
type listing it) records its step type. -/
def parse_step (st : PState) (line : String) : Except PErr (Option (Step × PState)) :=
  match findStepKeyword st.keywords line with
  | none => .ok none
  | some (stype, kw) =>
      let text := pyStrip (pyDrop line kw.length)
      let mk (resolved : String) (newLast : Option String) : Except PErr (Option (Step × PState)) :=
        .ok (some ({ line := st.line, keyword := pyRstrip kw, step_type := resolved, name := text },
                   { st with last_step_type := newLast }))
      match st.last_step_type with
      | some t =>
          if pyStartsWith kw "*" then mk t (some t)
          else if stype = "and" ∨ stype = "but" then mk t (some t)
          else mk stype (some stype)
      | none =>
          if stype = "and" ∨ stype = "but" then
            match select_last_background_step_type st with
            | some t => mk t (some t)
            | none =>
                .error (.raised (pyUpper stype ++ "-STEP REQUIRES: An previous Given/When/Then step.") st.line)
          else mk stype (some stype)

-- ---------------------------------------------------------------------------
-- Statement builders.
-- ---------------------------------------------------------------------------

/-- `Parser._build_feature` (src/behave/parser.py:326-335). -/
def build_feature (st : PState) (kw line : String) : PState :=
  let name := pyStrip (pyDrop line (kw.length + 1))
  let ft : Feature :=
    { line := st.line, keyword := kw, name := name, tags := st.tags,
      language := st.language.getD "en" }
  { st with feature := some ft, scenario_container := .featureC,
            currentRule := none, ruleInFeature := false, tags := [] }

/-- `Parser._build_rule_statement` (src/behave/parser.py:337-348).  The
previous rule (already added to the feature at its own build) is flushed
into `feature.rules`; the new rule gets the default background carrying the
feature's background steps as inherited steps (see `Rule`). -/
def build_rule_statement (st : PState) (kw line : String) : PState :=
  let name := pyStrip (pyDrop line (kw.length + 1))
  let inh := featureBackgroundSteps st
  let rule : Rule :=
    { line := st.line, keyword := kw, name := name, tags := st.tags,
      background := some { line := st.line, keyword := "Background", name := "",
                           inherited_steps := inh },
      inheritedBackgroundSteps := inh }
  let st :=
    match st.currentRule, st.ruleInFeature, st.feature with
    | some old, true, some ft => { st with feature := some { ft with rules := ft.rules ++ [old] } }
    | _, _, _ => st
  { st with currentRule := some rule, ruleInFeature := st.feature.isSome,
            scenario_container := .ruleC, statement := .ruleR, tags := [] }

/-- `Parser._build_background_statement` (src/behave/parser.py:350-362). -/
def build_background_statement (st : PState) (kw line : String) : Except PErr PState :=
  if !st.tags.isEmpty then
    .error (.raised ("Background supports no tags: @" ++
                     String.intercalate " @" (st.tags.map Tag.name)) st.line)
  else
    let secondBg :=
      match containerBackground st with
      | some bg => !bg.steps.isEmpty
      | none => false
    if secondBg then
      .error (.raised "Second Background (can have only one)" st.line)
    else
      let name := pyStrip (pyDrop line (kw.length + 1))
      let bg : Background := { line := st.line, keyword := kw, name := name }
      match containerAddBackground st bg with
      | .error e => .error e
      | .ok st' => .ok { st' with statement := .backgroundR }

/-- `Parser._build_scenario_statement` (src/behave/parser.py:364-373). -/
def build_scenario_statement (st : PState) (kw line : String) : Except PErr PState :=
  let name := pyStrip (pyDrop line (kw.length + 1))
  let sc : Scenario0 := { line := st.line, keyword := kw, name := name, tags := st.tags }
  match st.scenario_container with
  | .noneC => .ok { st with statement := .freeR, freeScenario := some sc, tags := [] }
  | _ =>
      match containerAddScenario0 st sc with
      | .error e => .error e
      | .ok st' => .ok { st' with statement := .scenarioR, tags := [] }

/-- `Parser._build_scenario_outline_statement` (src/behave/parser.py:375-385);
adds to the container unconditionally (a None container would be a Python
attribute error). -/
def build_scenario_outline_statement (st : PState) (kw line : String) : Except PErr PState :=
  let name := pyStrip (pyDrop line (kw.length + 1))
  let sc : Scenario0 := { line := st.line, keyword := kw, name := name, tags := st.tags,
                          isOutline := true }
  match containerAddScenario0 st sc with
  | .error e => .error e
  | .ok st' => .ok { st' with statement := .scenarioR, tags := [] }

/-- `Parser._build_examples` (src/behave/parser.py:387-400). -/
def build_examples (st : PState) (kw line : String) : Except PErr PState :=
  if !stmtIsOutline st then
    .error (.raised "Examples must only appear inside scenario outline" st.line)
  else
    let name := pyStrip (pyDrop line (kw.length + 1))
    let ex : Examples := { line := st.line, keyword := kw, name := name, tags := st.tags }
    match withStatementExamples st (· ++ [ex]) with
    | .error e => .error e
    | .ok st' => .ok { st' with examplesOpen := true, tags := [] }

-- ---------------------------------------------------------------------------
-- Failure oracle.
-- ---------------------------------------------------------------------------

/-- `Parser.diagnose_feature_usage_error` (src/behave/parser.py:402-406). -/
def diagnose_feature_usage_error (st : PState) : String :=
  if st.feature.isSome then "Multiple features in one file are not supported."
  else "Feature should not be used here."

/-- `Parser.diagnose_background_usage_error` (src/behave/parser.py:412-419). -/
def diagnose_background_usage_error (st : PState) : String :=
  if st.scenario_container ≠ .noneC ∧ containerScenarios st ≠ [] then
    "Background may not occur after Scenario/ScenarioOutline."
  else if !st.tags.isEmpty then "Background does not support tags."
  else "Background should not be used here."

/-- `Parser.diagnose_scenario_usage_error` (src/behave/parser.py:421-425). -/
def diagnose_scenario_usage_error (st : PState) : String :=
  if st.scenario_container = .noneC then "Scenario may not occur before Feature."
  else "Scenario should not be used here."

/-- `Parser.diagnose_scenario_outline_usage_error`
(src/behave/parser.py:427-431). -/
def diagnose_scenario_outline_usage_error (st : PState) : String :=
  if st.scenario_container = .noneC then "ScenarioOutline may not occur before Feature."
  else "ScenarioOutline should not be used here."

/-- `Parser.ask_parse_failure_oracle` (src/behave/parser.py:433-463). -/
def ask_parse_failure_oracle (st : PState) (line : String) : Option String :=
  if (match_keyword st "feature" line).isSome then some (diagnose_feature_usage_error st)
  else if (match_keyword st "rule" line).isSome then some "Rule should not be used here."
  else if (match_keyword st "background" line).isSome then some (diagnose_background_usage_error st)
  else if (match_keyword st "scenario" line).isSome then some (diagnose_scenario_usage_error st)
  else if (match_keyword st "scenario_outline" line).isSome then
    some (diagnose_scenario_outline_usage_error st)
  else if st.variant = "feature" ∧ st.feature = none then some "No feature found."
  else none

-- ---------------------------------------------------------------------------
-- State handlers.
-- ---------------------------------------------------------------------------

/-- `Parser.subaction_detect_taggable_statement` (src/behave/parser.py:511-552).
The line has already been stripped by the caller. -/
def subaction_detect_taggable_statement (st : PState) (line : String) :
    Except PErr (Bool × PState) :=
  if pyStartsWith line "@" then
    match parse_tags st line with
    | .error e => .error e
    | .ok ts => .ok (true, { st with tags := st.tags ++ ts, state := .taggableSt })
  else
    match match_keyword st "rule" line with
    | some kw => .ok (true, { build_rule_statement st kw line with state := .ruleSt })
    | none =>
    match match_keyword st "scenario" line with
    | some kw =>
        match build_scenario_statement st kw line with
        | .error e => .error e
        | .ok st' => .ok (true, { st' with state := .scenarioSt })
    | none =>
    match match_keyword st "scenario_outline" line with
    | some kw =>
        match build_scenario_outline_statement st kw line with
        | .error e => .error e
        | .ok st' => .ok (true, { st' with state := .scenarioSt })
    | none =>
    match match_keyword st "examples" line with
    | some kw =>
        match build_examples st kw line with
        | .error e => .error e
        | .ok st' => .ok (true, { st' with state := .tableSt })
    | none => .ok (false, st)

/-- `Parser.action_initial` (src/behave/parser.py:497-508). -/
def action_initial (st : PState) (line : String) : Except PErr (Bool × PState) :=
  let line := pyStrip line
  if pyStartsWith line "@" then
    match parse_tags st line with
    | .error e => .error e
    | .ok ts => .ok (true, { st with tags := st.tags ++ ts })
  else
    match match_keyword st "feature" line with
    | some kw => .ok (true, { build_feature st kw line with state := .featureSt })
    | none => .ok (false, st)

/-- `Parser.action_feature` (src/behave/parser.py:555-568).  Note the final
catch-all: any line that is neither a taggable statement nor a background
keyword is appended to the feature description, so this handler never
returns a falsy value. -/
def action_feature (st : PState) (line : String) : Except PErr (Bool × PState) :=
  let line := pyStrip line
  match subaction_detect_taggable_statement st line with
  | .error e => .error e
  | .ok (true, st') => .ok (true, st')
  | .ok (false, _) =>
    match match_keyword st "background" line with
    | some kw =>
        match build_background_statement st kw line with
        | .error e => .error e
        | .ok st' => .ok (true, { st' with state := .backgroundSt })
    | none =>
        match st.feature with
        | some ft =>
            .ok (true, { st with feature := some { ft with description := ft.description ++ [line] } })
        | none => .error (.uncaught "AttributeError: NoneType has no description" st.line)

/-- `Parser.action_taggable_statement` (src/behave/parser.py:570-585). -/
def action_taggable_statement (st : PState) (line : String) : Except PErr (Bool × PState) :=
  subaction_detect_taggable_statement st (pyStrip line)

/-- `Parser.action_rule` (src/behave/parser.py:602-626). -/
def action_rule (st : PState) (line : String) : Except PErr (Bool × PState) :=
  let line := pyStrip line
  match subaction_detect_taggable_statement st line with
  | .error e => .error e
  | .ok (true, st') => .ok (true, st')
  | .ok (false, _) =>
    match match_keyword st "background" line with
    | some kw =>
        match build_background_statement st kw line with
        | .error e => .error e
        | .ok st' => .ok (true, { st' with state := .backgroundSt })
    | none =>
        match st.currentRule with
        | some r =>
            .ok (true, { st with currentRule := some { r with description := r.description ++ [line] } })
        | none => .error (.uncaught "AttributeError: NoneType has no description" st.line)

/-- `Parser.action_scenario` (src/behave/parser.py:629-660); named with a
trailing 0 like the scenario node type.  Also serves as
`Parser.action_background` (src/behave/parser.py:587-600). -/
def action_scenario0 (st : PState) (line : String) : Except PErr (Bool × PState) :=
  let st := { st with last_step_type := none }
  let line := pyStrip line
  match parse_step st line with
  | .error e => .error e
  | .ok (some (stp, st')) =>
      let st' := { st' with state := .stepsSt }
      match withStatementSteps st' (· ++ [stp]) with
      | .error e => .error e
      | .ok st'' => .ok (true, st'')
  | .ok none =>
      match subaction_detect_taggable_statement st line with
      | .error e => .error e
      | .ok (true, st') => .ok (true, st')
      | .ok (false, _) =>
          match withStatementDescription st (· ++ [line]) with
          | .error e => .error e
          | .ok st' => .ok (true, st')

/-- `Parser.action_multiline_text` (src/behave/parser.py:711-748).  On a
terminator line the collected lines are joined with a newline and stored as
the last step's text; otherwise the line is captured with exactly
`multiline_leading` leading characters removed and trailing whitespace
stripped, and the capture fails when the removed prefix holds anything
other than whitespace.  A None terminator would be a Python TypeError
(unreachable: the multiline state is only entered after setting it). -/
def action_multiline_text (st : PState) (line : String) : Except PErr (Bool × PState) :=
  match st.multiline_terminator with
  | none => .error (.uncaught "TypeError: startswith(None)" st.line)
  | some term =>
      if pyStartsWith (pyStrip line) term then
        match withStatementLastStep st
            (fun s => normalize_step_name { s with text := some (mlText st) }) with
        | .error e => .error e
        | .ok st' =>
            .ok (true, { st' with lines := [], multiline_terminator := none, state := .stepsSt })
      else
        let text_line := pyRstrip (pyDrop line st.multiline_leading)
        let removed := pyTake line st.multiline_leading
        if pyStrip removed ≠ "" then
          .error (.raised ("BAD-INDENT in multiline text: Line '" ++ line ++
                           "' would strip leading '" ++ removed ++ "'") st.line)
        else .ok (true, { st with lines := st.lines ++ [text_line] })

/-- The cell list of a table row (src/behave/parser.py:779-782): split the
interior `line[1:-1]` on unescaped pipes, then unescape and strip each
cell. -/
def rowCells (line : String) : List String :=
  (splitUnescapedPipe ⟨(line.toList.drop 1).dropLast⟩).map
    (fun cell => pyStrip ⟨replEscPipe cell.toList⟩)

mutual

/-- `Parser.action_steps` (src/behave/parser.py:662-709).  The mutual
re-dispatch with `action_table` has call depth at most two (`action_steps`
calls `action_table` only on pipe-starting lines, whose table action takes
the row branch; `action_table` calls `action_steps` only on other lines,
whose steps action never reaches the pipe branch), so a fuel parameter of
two at every entry makes the recursion structural without changing any
reachable behaviour. -/
def action_steps (fuel : Nat) (st : PState) (line : String) : Except PErr (Bool × PState) :=
  let stripped := pyLstrip line
  if pyStartsWith stripped "\"\"\"" || pyStartsWith stripped "'''" then
    match statementSteps st with
    | .error e => .error e
    | .ok steps =>
        if steps.isEmpty then .error (.raised "Multi-line text before any step" st.line)
        else
          .ok (true, { st with state := .multilineSt, multiline_start := st.line,
                               multiline_terminator := some (pyTake stripped 3),
                               multiline_leading := countLeadingWs line })
  else
    let line := pyStrip line
    match parse_step st line with
    | .error e => .error e
    | .ok (some (stp, st')) =>
        match withStatementSteps st' (· ++ [stp]) with
        | .error e => .error e
        | .ok st'' => .ok (true, st'')
    | .ok none =>
        match subaction_detect_taggable_statement st line with
        | .error e => .error e
        | .ok (true, st') => .ok (true, st')
        | .ok (false, _) =>
            if pyStartsWith line "|" then
              match statementSteps st with
              | .error e => .error e
              | .ok steps =>
                  if steps.isEmpty then
                    .error (.raised "TABLE-START without step detected" st.line)
                  else
                    match fuel with
                    | 0 => .error (.uncaught "recursion fuel exhausted" st.line)
                    | f + 1 => action_table f { st with state := .tableSt } line
            else .ok (false, st)

/-- `Parser.action_table` (src/behave/parser.py:750-792).  A non-pipe line
closes the open table: it is bound to the open Examples block if one
exists, otherwise to the last step of the statement, and the line is
re-dispatched to `action_steps`.  A pipe line is a row: the first row
becomes the table's headings, later rows must have as many cells as the
headings (else a "Malformed table" ParserError) and are appended.  The
source also logs a warning for rows without a trailing pipe; logging has no
effect on the state and is not modelled. -/
def action_table (fuel : Nat) (st : PState) (line : String) : Except PErr (Bool × PState) :=
  let line := pyStrip line
  if !pyStartsWith line "|" then
    let bindTable : Except PErr PState :=
      if st.examplesOpen then
        match withStatementExamples st (updateLast (fun e => { e with table := st.table })) with
        | .error e => .error e
        | .ok st' => .ok { st' with examplesOpen := false }
      else
        withStatementLastStep st (fun s => normalize_step_name { s with table := st.table })
    match bindTable with
    | .error e => .error e
    | .ok st' =>
        match fuel with
        | 0 => .error (.uncaught "recursion fuel exhausted" st.line)
        | f + 1 => action_steps f { st' with table := none, state := .stepsSt } line
  else
    let cells := rowCells line
    match st.table with
    | none => .ok (true, { st with table := some { headings := cells, line := st.line } })
    | some tbl =>
        if cells.length ≠ tbl.headings.length then
          .error (.raised "Malformed table" st.line)
        else
          let tbl' : Table := { tbl with rows := tbl.rows ++ [{ cells := cells, line := st.line }] }
          .ok (true, { st with table := some tbl' })

end

/-- `Parser.action` (src/behave/parser.py:469-495): comment handling (with
the initial `language:` directive), dispatch on the state, and the failure
path that asks the oracle for a reason.  The `State.STEP` member has no
handler in the source (`getattr` returns None), giving the unknown-state
ParserError. -/
def action (st : PState) (line : String) : Except PErr PState :=
  if pyStartsWith (pyStrip line) "#" = true ∧ st.state ≠ .multilineSt then
    if st.state ≠ .initialSt ∨ st.tags ≠ [] ∨ st.variant ≠ "feature" then .ok st
    else
      let body := pyStrip (pyDrop (pyStrip line) 1)
      if pyStartsWith (pyLower (pyLstrip body)) "language:" then
        let lang := pyStrip (pyDrop body 9)
        match i18n_languages lang with
        | some kws => .ok { st with language := some lang, keywords := kws }
        | none => .error (.languageNotSupported lang)
      else .ok st
  else
    let run : Except PErr (Bool × PState) :=
      match st.state with
      | .initialSt => action_initial st line
      | .featureSt => action_feature st line
      | .ruleSt => action_rule st line
      | .backgroundSt => action_scenario0 st line
      | .scenarioSt => action_scenario0 st line
      | .taggableSt => action_taggable_statement st line
      | .stepsSt => action_steps 2 st line
      | .stepSt => .error (.raised "Parser in unknown state State.STEP;" st.line)
      | .multilineSt => action_multiline_text st line
      | .tableSt => action_table 2 st line
    match run with
    | .error e => .error e
    | .ok (true, st') => .ok st'
    | .ok (false, st') =>
        .error (.rejected (stateNameLower st'.state) st'.line
                          (ask_parse_failure_oracle st' (pyStrip line)))

/-- The body of the line loop of `Parser._parse_loop`
(src/behave/parser.py:309-314): count the line, skip blank lines outside
multiline text, otherwise run `action`. -/
def parseLine (st : PState) (line : String) : Except PErr PState :=
  let st := { st with line := st.line + 1 }
  if pyStrip line = "" ∧ st.state ≠ .multilineSt then .ok st
  else action st line

/-- The line loop of `Parser._parse_loop`: run `parseLine` over the lines
in order, stopping at the first error. -/
def runLines (st : PState) : List String → Except PErr PState
  | [] => .ok st
  | l :: ls =>
      match parseLine st l with
      | .error e => .error e
      | .ok st' => runLines st' ls

/-- `Parser._parse_loop` (src/behave/parser.py:288-317) for the whole-file
entry point: run the line action over the split lines, then close a
still-open table as if an empty line arrived (the boolean result of that
final `action_table` call is discarded by the source). -/
def parse_loop (st : PState) (text : String) : Except PErr PState :=
  match runLines st (pySplitLines text) with
  | .error e => .error e
  | .ok st =>
      if st.table.isSome then
        match action_table 2 st "" with
        | .error e => .error e
        | .ok (_, st') => .ok st'
      else .ok st

/-- The feature the parser state denotes once parsing is done: the current
rule (if it was added to the feature) is flushed into `feature.rules`. -/
def finalFeature (st : PState) : Option Feature :=
  match st.feature with
  | none => none
  | some ft =>
      match st.currentRule, st.ruleInFeature with
      | some r, true => some { ft with rules := ft.rules ++ [r] }
      | _, _ => some ft

/-- `Parser.parse` for the whole-file entry point
(src/behave/parser.py:319-324, with `Parser.__init__`/`Parser.reset`
resolving the language): run the loop and return the feature, after setting
its back-reference `feature.parser = self` when one was built.  `none`
(Python None) is returned when no feature was built. -/
def parseFeature (language : Option String) (text : String) : Except PErr (Option Feature) :=
  match reset language with
  | .error e => .error e
  | .ok st0 =>
      match parse_loop st0 text with
      | .error e => .error e
      | .ok st =>
          match finalFeature st with
          | some ft => .ok (some { ft with parserRefSet := true })
          | none => .ok none

-- ---------------------------------------------------------------------------
-- Projections and spec-side definitions used by the theorems.
-- ---------------------------------------------------------------------------

/-- The feature of a successful whole-file parse, if any. -/
def resultFeature (r : Except PErr (Option Feature)) : Option Feature :=
  match r with
  | .ok f => f
  | .error _ => none

/-- The first scenario of the parsed feature. -/
def firstScenario0 (r : Except PErr (Option Feature)) : Option Scenario0 :=
  (resultFeature r).bind (fun ft => ft.scenarios.head?)

/-- The step types of the first scenario's steps. -/
def scTypes (r : Except PErr (Option Feature)) : Option (List String) :=
  (firstScenario0 r).map (fun sc => sc.steps.map Step.step_type)

/-- The description of the parsed feature. -/
def featDescription (r : Except PErr (Option Feature)) : Option (List String) :=
  (resultFeature r).map Feature.description

/-- The name of the parsed feature. -/
def featName (r : Except PErr (Option Feature)) : Option String :=
  (resultFeature r).map Feature.name

/-- Name and description of the parsed feature's background. -/
def bgNameDescr (r : Except PErr (Option Feature)) : Option (String × List String) :=
  ((resultFeature r).bind Feature.background).map (fun b => (b.name, b.description))

/-- The doc-string text of the first step of the first scenario. -/
def docTextOfFirstStep (r : Except PErr (Option Feature)) : Option String :=
  (((firstScenario0 r).bind (fun sc => sc.steps.head?)).bind Step.text).map DocText.text

/-- The `parser` back-reference flag of the parsed feature. -/
def parserRefFlag (r : Except PErr (Option Feature)) : Option Bool :=
  (resultFeature r).map Feature.parserRefSet

/-- The table of the first Examples block of the first scenario. -/
def firstExamplesTable (r : Except PErr (Option Feature)) : Option Table :=
  ((firstScenario0 r).bind (fun sc => sc.examples.head?)).bind Examples.table

/-- A default feature, for extracting a parse result in closed witness
statements. -/
def emptyFeature : Feature := { line := 0, keyword := "Feature", name := "" }

/-- The parsed feature, or the default one (used by closed witnesses). -/
def getFeatureD (r : Except PErr (Option Feature)) : Feature :=
  (resultFeature r).getD emptyFeature

/-- Check an optional value (vacuously true when absent). -/
def optB (p : α → Bool) : Option α → Bool
  | some a => p a
  | none => true

/-- A table is rectangular: every row has exactly as many cells as the
headings. -/
def rectB (t : Table) : Bool :=
  t.rows.all (fun r => r.cells.length == t.headings.length)

/-- All tables of a step (at most its data table) are rectangular. -/
def stepTablesOk (s : Step) : Bool := optB rectB s.table

/-- All tables of a scenario (step data tables and examples tables) are
rectangular. -/
def scenarioTablesOk (sc : Scenario0) : Bool :=
  sc.steps.all stepTablesOk && sc.examples.all (fun e => optB rectB e.table)

/-- All tables of a background (own and inherited steps) are rectangular. -/
def bgTablesOk (b : Background) : Bool :=
  b.steps.all stepTablesOk && b.inherited_steps.all stepTablesOk

/-- All tables of a rule are rectangular. -/
def ruleTablesOk (r : Rule) : Bool :=
  optB bgTablesOk r.background &&
  r.scenarios.all scenarioTablesOk &&
  r.inheritedBackgroundSteps.all stepTablesOk

/-- Every table reachable from a feature is rectangular. -/
def featureTablesRect (ft : Feature) : Bool :=
  optB bgTablesOk ft.background &&
  ft.scenarios.all scenarioTablesOk &&
  ft.rules.all ruleTablesOk

/-- The rectangularity invariant over the four parser-state components that
can hold tables. -/
def invCore (ft : Option Feature) (r : Option Rule) (free : Option Scenario0)
    (tbl : Option Table) : Bool :=
  optB featureTablesRect ft && optB ruleTablesOk r &&
  optB scenarioTablesOk free && optB rectB tbl

/-- The rectangularity invariant of a parser state. -/
def InvB (st : PState) : Bool :=
  invCore st.feature st.currentRule st.freeScenario st.table

/-- Written from the claim's words (C6): scan whitespace-separated words; a
word starting with `#` ends the scan, a word starting with `@` contributes
its `@`-stripped form, any other word is a bad tag (`none`). -/
def specTagScan : List String → Option (List String)
  | [] => some []
  | w :: ws =>
      if pyStartsWith w "#" then some []
      else if pyStartsWith w "@" then (specTagScan ws).map (pyDrop w 1 :: ·)
      else none

/-- The reason carried by a parse error, when the error is the rejection of
a line (only the rejection path attaches an oracle reason). -/
def errReason : PErr → Option String
  | .rejected _ _ r => r
  | _ => none

/-- Whether a parse error is the rejection of a line by a state handler. -/
def isRejected : PErr → Bool
  | .rejected _ _ _ => true
  | _ => false

/-- A comment line in the sense of the top-level dispatch: its stripped form
starts with `#`. -/
def isCommentLine (l : String) : Bool := pyStartsWith (pyStrip l) "#"

/-- The comment body after the `#`, as the language detection computes it. -/
def commentBody (l : String) : String := pyStrip (pyDrop (pyStrip l) 1)

/-- Whether a comment line is a `language:` directive. -/
def isLanguageDirective (l : String) : Bool :=
  pyStartsWith (pyLower (pyLstrip (commentBody l))) "language:"

/-- A freshly reset English parser state, line counter at `n` (the state the
loop is in after skipping `n` blank or comment lines). -/
def initAt (n : Nat) : PState := { resetState "en" langEn with line := n }

/-- Demo state for witnesses: inside a scenario block whose last typed step
was a `When` step. -/
def demoStWhen : PState :=
  { resetState "en" langEn with last_step_type := some "when" }

/-- Demo state for witnesses: a feature with a background whose only step is
a `Given` step, with the feature as scenario container. -/
def demoStBg : PState :=
  { resetState "en" langEn with
    scenario_container := .featureC,
    feature := some { emptyFeature with
      background := some { line := 2, keyword := "Background", name := "",
                           steps := [{ line := 3, keyword := "Given", step_type := "given",
                                       name := "g" }] } } }

/-- Demo state for witnesses: inside a doc-string block opened at column 2. -/
def demoStML : PState :=
  { resetState "en" langEn with
    state := .multilineSt, multiline_terminator := some "\"\"\"",
    multiline_leading := 2, lines := ["x"] }

-- Intermediate parser states of the concrete end-to-end runs; each is the
-- state after the corresponding input line, checked by a single-step
-- evaluation in the theorems below.

/-- A step literal (no doc-string, no table). -/
def mkStp (n : Nat) (kw ty nm : String) : Step :=
  { line := n, keyword := kw, step_type := ty, name := nm }

/-- Feature header node of the inputs that start with "Feature: F". -/
def featF : Feature := { line := 1, keyword := "Feature", name := "F" }

/-- Feature header node of the inputs that start with "Feature: A". -/
def featA : Feature := { line := 1, keyword := "Feature", name := "A" }

/-- State after the line "Feature: F". -/
def stF1 : PState :=
  { language := some "en", state := .featureSt, line := 1,
    scenario_container := .featureC, feature := some featF }

/-- State after the line "Feature: A". -/
def stA1 : PState := { stF1 with feature := some featA }

/-- Feature "F" with one Scenario "S" at line 2 holding the given steps. -/
def c1aFt (steps : List Step) : Feature :=
  { featF with scenarios := [{ line := 2, keyword := "Scenario", name := "S", steps := steps }] }

def c1aS2 : PState :=
  { language := some "en", state := .scenarioSt, line := 2,
    scenario_container := .featureC, statement := .scenarioR, feature := some (c1aFt []) }

def c1aS3 : PState :=
  { c1aS2 with
    state := .stepsSt
    line := 3
    last_step_type := some "when"
    feature := some (c1aFt [mkStp 3 "When" "when" "a"]) }

def c1aS4 : PState :=
  { c1aS3 with
    line := 4
    feature := some (c1aFt [mkStp 3 "When" "when" "a", mkStp 4 "And" "when" "b"]) }

def c1aS5 : PState :=
  { c1aS3 with
    line := 5
    feature := some (c1aFt [mkStp 3 "When" "when" "a", mkStp 4 "And" "when" "b",
                            mkStp 5 "But" "when" "c"]) }

/-- Feature "F" with a Background at line 2 and the given scenarios. -/
def c1bFt (bgSteps : List Step) (scs : List Scenario0) : Feature :=
  { featF with
    background := some { line := 2, keyword := "Background", name := "", steps := bgSteps }
    scenarios := scs }

def c1bS2 : PState :=
  { language := some "en", state := .backgroundSt, line := 2,
    scenario_container := .featureC, statement := .backgroundR, feature := some (c1bFt [] []) }

def c1bS3 : PState :=
  { c1bS2 with
    state := .stepsSt
    line := 3
    last_step_type := some "given"
    feature := some (c1bFt [mkStp 3 "Given" "given" "g"] []) }

def c1bS4 : PState :=
  { c1bS3 with
    state := .scenarioSt
    line := 4
    statement := .scenarioR
    feature := some (c1bFt [mkStp 3 "Given" "given" "g"]
                           [{ line := 4, keyword := "Scenario", name := "S" }]) }

def c1bS5 : PState :=
  { c1bS4 with
    state := .stepsSt
    line := 5
    feature := some (c1bFt [mkStp 3 "Given" "given" "g"]
                           [{ line := 4, keyword := "Scenario", name := "S",
                              steps := [mkStp 5 "And" "given" "s"] }]) }

/-- Feature "A" with one Scenario "S" at line 2 holding the given steps. -/
def c2Ft (steps : List Step) : Feature :=
  { featA with scenarios := [{ line := 2, keyword := "Scenario", name := "S", steps := steps }] }

def c2S2 : PState :=
  { language := some "en", state := .scenarioSt, line := 2,
    scenario_container := .featureC, statement := .scenarioR, feature := some (c2Ft []) }

def c2S3 : PState :=
  { c2S2 with
    state := .stepsSt
    line := 3
    last_step_type := some "given"
    feature := some (c2Ft [mkStp 3 "Given" "given" "x"]) }

def c4S3 : PState :=
  { c1aS2 with
    state := .stepsSt
    line := 3
    last_step_type := some "given"
    feature := some (c1aFt [mkStp 3 "Given" "given" "x"]) }

def c4S4 : PState :=
  { c4S3 with
    state := .multilineSt
    line := 4
    multiline_start := 4
    multiline_leading := 4
    multiline_terminator := some "\"\"\"" }

def c4S5 : PState := { c4S4 with line := 5, lines := ["hello"] }

def c4S6 : PState := { c4S4 with line := 6, lines := ["hello", " world"] }

def c4S7 : PState :=
  { c4S3 with
    line := 7
    multiline_start := 4
    multiline_leading := 4
    feature := some (c1aFt [{ mkStp 3 "Given" "given" "x" with
      text := some { text := "hello\n world", contentType := "text/plain", line := 4 } }]) }

/-- Feature "F" with Background "A" (line 2) and the given description and
scenarios. -/
def c8Ft (descr : List String) (scs : List Scenario0) : Feature :=
  { featF with
    background := some { line := 2, keyword := "Background", name := "A", description := descr }
    scenarios := scs }

def c8S2 : PState :=
  { language := some "en", state := .backgroundSt, line := 2,
    scenario_container := .featureC, statement := .backgroundR, feature := some (c8Ft [] []) }

def c8S3 : PState := { c8S2 with line := 3, feature := some (c8Ft ["Background: B"] []) }

def c8S4 : PState :=
  { c8S3 with
    state := .scenarioSt
    line := 4
    statement := .scenarioR
    feature := some (c8Ft ["Background: B"] [{ line := 4, keyword := "Scenario", name := "S" }]) }

def c8S5 : PState :=
  { c8S4 with
    state := .stepsSt
    line := 5
    last_step_type := some "given"
    feature := some (c8Ft ["Background: B"]
                          [{ line := 4, keyword := "Scenario", name := "S",
                             steps := [mkStp 5 "Given" "given" "x"] }]) }

/-- Feature "F" with one ScenarioOutline "S" holding one step and the given
examples blocks. -/
def c3Ft (exs : List Examples) : Feature :=
  { featF with scenarios := [{ line := 2, keyword := "Scenario Outline", name := "S",
                               steps := [mkStp 3 "Given" "given" "<n>"], examples := exs,
                               isOutline := true }] }

def c3S2 : PState :=
  { language := some "en", state := .scenarioSt, line := 2,
    scenario_container := .featureC, statement := .scenarioR,
    feature := some { featF with scenarios := [{ line := 2, keyword := "Scenario Outline",
                                                 name := "S", isOutline := true }] } }

def c3S3 : PState :=
  { c3S2 with
    state := .stepsSt
    line := 3
    last_step_type := some "given"
    feature := some (c3Ft []) }

def c3S4 : PState :=
  { c3S3 with
    state := .tableSt
    line := 4
    examplesOpen := true
    feature := some (c3Ft [{ line := 4, keyword := "Examples", name := "" }]) }

def c3S5 : PState := { c3S4 with line := 5, table := some { headings := ["n"], line := 5 } }

def c3S6 : PState :=
  { c3S4 with
    line := 6
    table := some { headings := ["n"], line := 5, rows := [{ cells := ["1"], line := 6 }] } }

/-- The completed examples table of the outline run. -/
def c3Tbl : Table :=
  { headings := ["n"], line := 5,
    rows := [{ cells := ["1"], line := 6 }, { cells := ["2"], line := 7 }] }

def c3S7 : PState := { c3S4 with line := 7, table := some c3Tbl }

/-- State after the end-of-file close of the still-open examples table. -/
def c3S8 : PState :=
  { c3S3 with
    line := 7
    feature := some (c3Ft [{ line := 4, keyword := "Examples", name := "",
                             table := some c3Tbl }]) }

-- ---------------------------------------------------------------------------
-- Theorems.
-- ---------------------------------------------------------------------------

/-- The environment switch is off, so step-name normalization is the
identity. -/
theorem normalize_step_name_id (s : Step) : normalize_step_name s = s := rfl

/-- Updating the last element of a list with an explicit last element. -/
theorem updateLast_concat (f : α → α) (l : List α) (a : α) :
    updateLast f (l ++ [a]) = l ++ [f a] := by
  induction l with
  | nil => rfl
  | cons b bs ih =>
      cases bs with
      | nil => rfl
      | cons c cs =>
          simp only [List.cons_append] at ih ⊢
          rw [updateLast]
          rw [ih]

/-- `updateLast` maps the last element and keeps the rest. -/
theorem getLast?_updateLast (f : α → α) (l : List α) :
    (updateLast f l).getLast? = l.getLast?.map f := by
  induction l using List.reverseRecOn with
  | nil => rfl
  | append_singleton as a _ => rw [updateLast_concat]; simp

/-- Read-after-write for the statement's step list: if the statement's steps
read as `steps` and a step-list update `g` succeeds, the steps afterwards
read as `g steps`. -/
theorem withStatementSteps_spec (st : PState) (g : List Step → List Step) (st2 : PState)
    (steps : List Step) (h1 : statementSteps st = .ok steps)
    (h2 : withStatementSteps st g = .ok st2) :
    statementSteps st2 = .ok (g steps) := by
  unfold withStatementSteps at h2
  unfold statementSteps at h1 ⊢
  cases hst : st.statement
  all_goals simp only [hst] at h1 h2
  case noneR => exact absurd h1 (by simp)
  case ruleR => exact absurd h1 (by simp)
  case backgroundR =>
    unfold withContainerBackground at h2
    unfold containerBackground at h1 ⊢
    cases hc : st.scenario_container
    all_goals simp only [hc] at h1 h2
    case noneC => exact absurd h1 (by simp)
    case featureC =>
      cases hft : st.feature
      all_goals simp only [hft] at h1 h2
      case none => exact absurd h1 (by simp)
      case some ft =>
        cases hbg : ft.background
        all_goals simp only [hbg] at h1 h2
        case none => exact absurd h1 (by simp)
        case some bg =>
          injection h2 with h2
          subst h2
          injection h1 with h1
          subst h1
          simp [hst, hc]
    case ruleC =>
      cases hru : st.currentRule
      all_goals simp only [hru] at h1 h2
      case none => exact absurd h1 (by simp)
      case some ru =>
        cases hbg : ru.background
        all_goals simp only [hbg] at h1 h2
        case none => exact absurd h1 (by simp)
        case some bg =>
          injection h2 with h2
          subst h2
          injection h1 with h1
          subst h1
          simp [hst, hc]
  case scenarioR =>
    unfold withLastScenario0 at h2
    cases hc : st.scenario_container
    all_goals simp only [hc] at h1 h2
    case noneC => exact absurd h1 (by simp)
    case featureC =>
      cases hft : st.feature
      all_goals simp only [hft] at h1 h2
      case none => exact absurd h1 (by simp)
      case some ft =>
        cases hsc : ft.scenarios.getLast?
        all_goals simp only [hsc] at h1
        case none => exact absurd h1 (by simp)
        case some sc =>
          injection h2 with h2
          subst h2
          injection h1 with h1
          subst h1
          simp [hst, hc, getLast?_updateLast, hsc]
    case ruleC =>
      cases hru : st.currentRule
      all_goals simp only [hru] at h1 h2
      case none => exact absurd h1 (by simp)
      case some ru =>
        cases hsc : ru.scenarios.getLast?
        all_goals simp only [hsc] at h1
        case none => exact absurd h1 (by simp)
        case some sc =>
          injection h2 with h2
          subst h2
          injection h1 with h1
          subst h1
          simp [hst, hc, getLast?_updateLast, hsc]
  case freeR =>
    cases hfs : st.freeScenario
    all_goals simp only [hfs] at h1 h2
    case none => exact absurd h1 (by simp)
    case some sc =>
      injection h2 with h2
      subst h2
      injection h1 with h1
      subst h1
      simp [hst]

/-- Read-after-write for updating the statement's last step: the steps
before the update decompose as `pre ++ [lastS]`, and afterwards they read
as `pre ++ [f lastS]`. -/
theorem withStatementLastStep_spec (st : PState) (f : Step → Step) (st2 : PState)
    (h : withStatementLastStep st f = .ok st2) :
    ∃ pre lastS, statementSteps st = .ok (pre ++ [lastS]) ∧
      statementSteps st2 = .ok (pre ++ [f lastS]) := by
  unfold withStatementLastStep at h
  cases hss : statementSteps st with
  | error e => simp [hss] at h
  | ok steps =>
      simp only [hss] at h
      cases steps with
      | nil => simp at h
      | cons s ss =>
          have hdecomp := (List.dropLast_append_getLast (l := s :: ss) (by simp)).symm
          refine ⟨(s :: ss).dropLast, (s :: ss).getLast (by simp), ?_, ?_⟩
          · rw [← hdecomp]
          · have h3 := withStatementSteps_spec st (updateLast f) st2 (s :: ss) hss h
            rw [hdecomp, updateLast_concat] at h3
            exact h3

/-- C1: every step whose matched semantic type is `and` or `but` resolves to
the last recorded step type of the current block when one exists; otherwise
it falls back to the step type of the last step of the applicable
Background (the container's background's own steps, or its inherited
steps), and when that is absent too `parse_step` raises the ParserError
"...-STEP REQUIRES: An previous Given/When/Then step.".  The two closed
conjuncts check the end-to-end behaviour on a When/And/But scenario and on
background inheritance into a scenario's leading And step. -/
theorem c1_and_but_step_resolution :
    (∀ (st : PState) (line stype kw : String),
      findStepKeyword st.keywords line = some (stype, kw) →
      stype = "and" ∨ stype = "but" →
      ((∀ t, st.last_step_type = some t →
        parse_step st line = .ok (some
          ({ line := st.line, keyword := pyRstrip kw, step_type := t,
             name := pyStrip (pyDrop line kw.length) },
           { st with last_step_type := some t }))) ∧
       (st.last_step_type = none →
        ((∀ t, select_last_background_step_type st = some t →
          parse_step st line = .ok (some
            ({ line := st.line, keyword := pyRstrip kw, step_type := t,
               name := pyStrip (pyDrop line kw.length) },
             { st with last_step_type := some t }))) ∧
         (select_last_background_step_type st = none →
          parse_step st line = .error
            (.raised (pyUpper stype ++ "-STEP REQUIRES: An previous Given/When/Then step.")
              st.line)))))) ∧
    scTypes (parseFeature none "Feature: F\nScenario: S\nWhen a\nAnd b\nBut c\n") =
      some ["when", "when", "when"] ∧
    scTypes (parseFeature none "Feature: F\nBackground:\nGiven g\nScenario: S\nAnd s\n") =
      some ["given"] := by
  refine ⟨?_, ?_, ?_⟩
  · intro st line stype kw hf hab
    refine ⟨fun t hst => ?_, fun hnone => ⟨fun t hsel => ?_, fun hsel => ?_⟩⟩
    · unfold parse_step
      rw [hf, hst]
      by_cases hkw : pyStartsWith kw "*" = true
      · simp [hkw]
      · simp [hkw, hab]
    · unfold parse_step
      rw [hf, hnone]
      simp [hab, hsel]
    · unfold parse_step
      rw [hf, hnone]
      simp [hab, hsel]
  · have hs : pySplitLines "Feature: F\nScenario: S\nWhen a\nAnd b\nBut c\n" =
        ["Feature: F", "Scenario: S", "When a", "And b", "But c"] := by rfl
    have h1 : parseLine (resetState "en" langEn) "Feature: F" = .ok stF1 := by rfl
    have h2 : parseLine stF1 "Scenario: S" = .ok c1aS2 := by rfl
    have h3 : parseLine c1aS2 "When a" = .ok c1aS3 := by rfl
    have h4 : parseLine c1aS3 "And b" = .ok c1aS4 := by rfl
    have h5 : parseLine c1aS4 "But c" = .ok c1aS5 := by rfl
    have hr : reset none = .ok (resetState "en" langEn) := by rfl
    have hloop : parse_loop (resetState "en" langEn)
        "Feature: F\nScenario: S\nWhen a\nAnd b\nBut c\n" = .ok c1aS5 := by
      unfold parse_loop
      rw [hs]
      simp only [runLines, h1, h2, h3, h4, h5]
      rfl
    have hpf : parseFeature none "Feature: F\nScenario: S\nWhen a\nAnd b\nBut c\n" =
        .ok (some { c1aFt [mkStp 3 "When" "when" "a", mkStp 4 "And" "when" "b",
                           mkStp 5 "But" "when" "c"] with parserRefSet := true }) := by
      simp only [parseFeature, hr, hloop]
      rfl
    unfold scTypes firstScenario0 resultFeature
    rw [hpf]
    rfl
  · have hs : pySplitLines "Feature: F\nBackground:\nGiven g\nScenario: S\nAnd s\n" =
        ["Feature: F", "Background:", "Given g", "Scenario: S", "And s"] := by rfl
    have h1 : parseLine (resetState "en" langEn) "Feature: F" = .ok stF1 := by rfl
    have h2 : parseLine stF1 "Background:" = .ok c1bS2 := by rfl
    have h3 : parseLine c1bS2 "Given g" = .ok c1bS3 := by rfl
    have h4 : parseLine c1bS3 "Scenario: S" = .ok c1bS4 := by rfl
    have h5 : parseLine c1bS4 "And s" = .ok c1bS5 := by rfl
    have hr : reset none = .ok (resetState "en" langEn) := by rfl
    have hloop : parse_loop (resetState "en" langEn)
        "Feature: F\nBackground:\nGiven g\nScenario: S\nAnd s\n" = .ok c1bS5 := by
      unfold parse_loop
      rw [hs]
      simp only [runLines, h1, h2, h3, h4, h5]
      rfl
    have hpf : parseFeature none "Feature: F\nBackground:\nGiven g\nScenario: S\nAnd s\n" =
        .ok (some { c1bFt [mkStp 3 "Given" "given" "g"]
                          [{ line := 4, keyword := "Scenario", name := "S",
                             steps := [mkStp 5 "And" "given" "s"] }] with
                    parserRefSet := true }) := by
      simp only [parseFeature, hr, hloop]
      rfl
    unfold scTypes firstScenario0 resultFeature
    rw [hpf]
    rfl

/-- Witness for C1: a concrete `And` line with a known last step type
resolves to it, and with no last step type but a background Given step it
resolves to "given". -/
theorem c1_witness :
    parse_step demoStWhen "And b" = .ok (some
      ({ line := 0, keyword := "And", step_type := "when", name := "b" },
       { demoStWhen with last_step_type := some "when" })) ∧
    parse_step demoStBg "And s" = .ok (some
      ({ line := 0, keyword := "And", step_type := "given", name := "s" },
       { demoStBg with last_step_type := some "given" })) := by
  constructor
  · exact ((c1_and_but_step_resolution.1 demoStWhen "And b" "and" "And "
      (by rfl) (Or.inl rfl)).1 "when" rfl)
  · exact (((c1_and_but_step_resolution.1 demoStBg "And s" "and" "And "
      (by rfl) (Or.inl rfl)).2 rfl).1 "given" (by rfl))

/-- C2 counterexample: the input "Feature: A\nFeature: B\n" does not raise a
ParserError; the whole-file entry point parses it successfully, absorbing
the second `Feature:` line as a description line of the first feature. -/
theorem c2_counterexample :
    parseFeature none "Feature: A\nFeature: B\n" =
      .ok (some { featA with description := ["Feature: B"], parserRefSet := true }) := by
  rfl

/-- C2 (amended): a `Feature:` line reaching the FEATURE state handler is
never rejected: it is appended to the feature description, so
"Feature: A\nFeature: B\n" parses successfully into a single feature "A"
with description ["Feature: B"].  A `Feature:` line reaching a rejecting
handler is refused with the reason "Multiple features in one file are not
supported.": "Feature: A\nScenario: S\nGiven x\nFeature: B\n" fails at
line 4 with exactly that reason. -/
theorem c2_second_feature_line :
    parseFeature none "Feature: A\nFeature: B\n" =
      .ok (some { featA with description := ["Feature: B"], parserRefSet := true }) ∧
    parseFeature none "Feature: A\nScenario: S\nGiven x\nFeature: B\n" =
      .error (.rejected "steps" 4 (some "Multiple features in one file are not supported.")) := by
  constructor
  · rfl
  · have hs : pySplitLines "Feature: A\nScenario: S\nGiven x\nFeature: B\n" =
        ["Feature: A", "Scenario: S", "Given x", "Feature: B"] := by rfl
    have h1 : parseLine (resetState "en" langEn) "Feature: A" = .ok stA1 := by rfl
    have h2 : parseLine stA1 "Scenario: S" = .ok c2S2 := by rfl
    have h3 : parseLine c2S2 "Given x" = .ok c2S3 := by rfl
    have h4 : parseLine c2S3 "Feature: B" =
        .error (.rejected "steps" 4 (some "Multiple features in one file are not supported.")) := by
      rfl
    have hr : reset none = .ok (resetState "en" langEn) := by rfl
    have hloop : parse_loop (resetState "en" langEn)
        "Feature: A\nScenario: S\nGiven x\nFeature: B\n" =
        .error (.rejected "steps" 4 (some "Multiple features in one file are not supported.")) := by
      unfold parse_loop
      rw [hs]
      simp only [runLines, h1, h2, h3, h4]
    simp only [parseFeature, hr, hloop]

/-- C4: while a doc string is open, a non-terminator line is captured with
exactly `multiline_leading` leading characters removed and trailing
whitespace stripped; if the removed prefix contains a non-whitespace
character the parse fails with the BAD-INDENT ParserError, so a successful
capture never removes non-whitespace characters.  On the terminator line
the captured lines are joined with a single newline and stored as the last
step's doc-string text.  The closed conjunct checks the end-to-end
behaviour on the doc-string example. -/
theorem c4_docstring_indent :
    (∀ (st : PState) (line term : String),
      st.multiline_terminator = some term →
      pyStartsWith (pyStrip line) term = false →
      ((pyStrip (pyTake line st.multiline_leading) ≠ "" →
        action_multiline_text st line = .error (.raised
          ("BAD-INDENT in multiline text: Line '" ++ line ++ "' would strip leading '" ++
           pyTake line st.multiline_leading ++ "'") st.line)) ∧
       (pyStrip (pyTake line st.multiline_leading) = "" →
        action_multiline_text st line = .ok (true,
          { st with lines := st.lines ++ [pyRstrip (pyDrop line st.multiline_leading)] })))) ∧
    (∀ (st : PState) (line term : String) (st' : PState),
      st.multiline_terminator = some term →
      pyStartsWith (pyStrip line) term = true →
      action_multiline_text st line = .ok (true, st') →
      st'.lines = [] ∧ st'.state = .stepsSt ∧
      ∃ pre lastS, statementSteps st = .ok (pre ++ [lastS]) ∧
        statementSteps st' = .ok (pre ++ [{ lastS with text := some (mlText st) }])) ∧
    docTextOfFirstStep (parseFeature none
      "Feature: F\n Scenario: S\n  Given x\n    \"\"\"\n    hello\n     world\n    \"\"\"\n") =
      some "hello\n world" := by
  refine ⟨?_, ?_, ?_⟩
  · intro st line term hterm hfalse
    constructor
    · intro hne
      simp [action_multiline_text, hterm, hfalse, hne]
    · intro hws
      simp [action_multiline_text, hterm, hfalse, hws]
  · intro st line term st' hterm htrue hok
    simp only [action_multiline_text, hterm, htrue, if_pos] at hok
    cases hw : withStatementLastStep st
        (fun s => normalize_step_name { s with text := some (mlText st) }) with
    | error e => rw [hw] at hok; simp at hok
    | ok st2 =>
        rw [hw] at hok
        simp only [Except.ok.injEq, Prod.mk.injEq, true_and] at hok
        subst hok
        refine ⟨rfl, rfl, ?_⟩
        obtain ⟨pre, lastS, h1, h2⟩ := withStatementLastStep_spec st _ st2 hw
        rw [normalize_step_name_id] at h2
        exact ⟨pre, lastS, h1, h2⟩
  · have hs : pySplitLines
        "Feature: F\n Scenario: S\n  Given x\n    \"\"\"\n    hello\n     world\n    \"\"\"\n" =
        ["Feature: F", " Scenario: S", "  Given x", "    \"\"\"", "    hello",
         "     world", "    \"\"\""] := by rfl
    have h1 : parseLine (resetState "en" langEn) "Feature: F" = .ok stF1 := by rfl
    have h2 : parseLine stF1 " Scenario: S" = .ok c1aS2 := by rfl
    have h3 : parseLine c1aS2 "  Given x" = .ok c4S3 := by rfl
    have h4 : parseLine c4S3 "    \"\"\"" = .ok c4S4 := by rfl
    have h5 : parseLine c4S4 "    hello" = .ok c4S5 := by rfl
    have h6 : parseLine c4S5 "     world" = .ok c4S6 := by rfl
    have h7 : parseLine c4S6 "    \"\"\"" = .ok c4S7 := by rfl
    have hr : reset none = .ok (resetState "en" langEn) := by rfl
    have hloop : parse_loop (resetState "en" langEn)
        "Feature: F\n Scenario: S\n  Given x\n    \"\"\"\n    hello\n     world\n    \"\"\"\n" =
        .ok c4S7 := by
      unfold parse_loop
      rw [hs]
      simp only [runLines, h1, h2, h3, h4, h5, h6, h7]
      rfl
    have hpf : parseFeature none
        "Feature: F\n Scenario: S\n  Given x\n    \"\"\"\n    hello\n     world\n    \"\"\"\n" =
        .ok (some { c1aFt [{ mkStp 3 "Given" "given" "x" with
          text := some { text := "hello\n world", contentType := "text/plain", line := 4 } }] with
          parserRefSet := true }) := by
      simp only [parseFeature, hr, hloop]
      rfl
    unfold docTextOfFirstStep firstScenario0 resultFeature
    rw [hpf]
    rfl

/-- Witness for C4: a concrete capture line under a two-column doc-string
indent is stripped of exactly two leading blanks and its trailing
whitespace, and a concrete bad-indent line fails. -/
theorem c4_witness :
    action_multiline_text demoStML "  abc  " = .ok (true, { demoStML with lines := ["x", "abc"] }) ∧
    action_multiline_text demoStML "bad" = .error (.raised
      ("BAD-INDENT in multiline text: Line 'bad' would strip leading 'ba'") 0) := by
  constructor
  · exact ((c4_docstring_indent.1 demoStML "  abc  " "\"\"\"" rfl (by rfl)).2 (by rfl))
  · exact ((c4_docstring_indent.1 demoStML "bad" "\"\"\"" rfl (by rfl)).1 (by decide))

/-- C5 counterexample: with no last step type known, the step "* x" does
not get the sentinel semantic type "step"; it gets "given" (the asterisk
alias first matches under the given step type), and parsing does not
fail. -/
theorem c5_counterexample :
    parse_step (resetState "en" langEn) "* x" =
      .ok (some ({ line := 0, keyword := "*", step_type := "given", name := "x" },
                 { resetState "en" langEn with last_step_type := some "given" })) ∧
    "given" ≠ "step" := by
  exact ⟨by rfl, by decide⟩

/-- C5 (amended): under the English keyword table the asterisk alias
matches with step type "given" (the first step type whose alias list it
appears in).  When a last step type is known the step inherits it and the
last step type is unchanged; when none is known the step takes semantic
type "given" (not the sentinel "step"), the last step type becomes
"given", and parsing does not fail. -/
theorem c5_star_step :
    ∀ (st : PState) (line stype : String),
      st.keywords = langEn →
      findStepKeyword langEn line = some (stype, "* ") →
      stype = "given" ∧
      (∀ t, st.last_step_type = some t →
        parse_step st line = .ok (some
          ({ line := st.line, keyword := "*", step_type := t, name := pyStrip (pyDrop line 2) },
           { st with last_step_type := some t }))) ∧
      (st.last_step_type = none →
        parse_step st line = .ok (some
          ({ line := st.line, keyword := "*", step_type := "given",
             name := pyStrip (pyDrop line 2) },
           { st with last_step_type := some "given" }))) := by
  intro st line stype hkws hf
  have hg : stype = "given" := by
    by_cases hstar : (pyStartsWith line "* " || pyStartsWith (pyLower line) (pyLower "* ")) = true
    · simp only [findStepKeyword, langEn, List.findSome?, if_pos hstar, Option.some.injEq,
                 Prod.mk.injEq] at hf
      exact hf.1.symm
    · simp only [findStepKeyword, langEn, List.findSome?, if_neg hstar] at hf
      repeat' split at hf
      all_goals try split_ifs at *
      all_goals simp_all
  subst hg
  refine ⟨rfl, fun t hst => ?_, fun hnone => ?_⟩
  · unfold parse_step
    rw [hkws, hf, hst]
    simp [show pyStartsWith "* " "*" = true from rfl]
    exact ⟨rfl, rfl⟩
  · unfold parse_step
    rw [hkws, hf, hnone]
    simp
    exact ⟨rfl, rfl⟩

/-- Witness for C5: a concrete asterisk step inherits a known "when" type,
and with no known type a concrete asterisk step gets type "given". -/
theorem c5_witness :
    parse_step demoStWhen "* y" = .ok (some
      ({ line := 0, keyword := "*", step_type := "when", name := "y" },
       { demoStWhen with last_step_type := some "when" })) ∧
    parse_step (resetState "en" langEn) "* y" = .ok (some
      ({ line := 0, keyword := "*", step_type := "given", name := "y" },
       { resetState "en" langEn with last_step_type := some "given" })) := by
  constructor
  · exact ((c5_star_step demoStWhen "* y" "given" rfl (by rfl)).2.1 "when" rfl)
  · exact ((c5_star_step (resetState "en" langEn) "* y" "given" rfl (by rfl)).2.2 rfl)

/-- A word starting with `#` does not start with `@`. -/
theorem startsWith_hash_not_at (w : String) :
    pyStartsWith w "#" = true → pyStartsWith w "@" = true → False := by
  cases w with
  | mk l =>
      cases l with
      | nil => simp [pyStartsWith, List.isPrefixOf]
      | cons c cs =>
          simp [pyStartsWith, List.isPrefixOf, String.toList]
          intro h1
          subst h1
          decide

/-- The tag-word scan agrees with the claim's description: stop at a `#`
word, take the `@`-stripped form of `@` words, fail on anything else. -/
theorem tagWords_vs_spec (line : String) (ln : Nat) (ws : List String) :
    (∀ names, specTagScan ws = some names →
      ∃ ts, tagWords line ln ws = .ok ts ∧ ts.map Tag.name = names ∧ ∀ t ∈ ts, t.line = ln) ∧
    (specTagScan ws = none →
      ∃ w, tagWords line ln ws = .error
        (.raised ("tag: " ++ w ++ " (line: " ++ line ++ ")") ln)) := by
  induction ws with
  | nil =>
      constructor
      · intro names h
        simp only [specTagScan, Option.some.injEq] at h
        subst h
        exact ⟨[], rfl, rfl, by simp⟩
      · intro h
        simp [specTagScan] at h
  | cons w ws ih =>
      by_cases hat : pyStartsWith w "@" = true
      · have hhash : pyStartsWith w "#" = false := by
          cases hh : pyStartsWith w "#"
          · rfl
          · exact (startsWith_hash_not_at w hh hat).elim
        have hhash' : ¬ pyStartsWith w "#" = true := by simp [hhash]
        constructor
        · intro names h
          simp only [specTagScan] at h
          rw [if_neg hhash', if_pos hat] at h
          cases hspec : specTagScan ws with
          | none => rw [hspec] at h; simp at h
          | some names' =>
              rw [hspec] at h
              simp only [Option.map_some', Option.some.injEq] at h
              subst h
              obtain ⟨ts, hts, hnm, hln⟩ := ih.1 names' hspec
              refine ⟨⟨pyDrop w 1, ln⟩ :: ts, ?_, ?_, ?_⟩
              · simp only [tagWords]
                rw [if_pos hat, hts]
              · simp [hnm]
              · intro t ht
                rcases List.mem_cons.1 ht with h' | h'
                · rw [h']
                · exact hln t h'
        · intro h
          simp only [specTagScan] at h
          rw [if_neg hhash', if_pos hat] at h
          cases hspec : specTagScan ws with
          | some names' => rw [hspec] at h; simp at h
          | none =>
              obtain ⟨w', hw'⟩ := ih.2 hspec
              refine ⟨w', ?_⟩
              simp only [tagWords]
              rw [if_pos hat, hw']
      · by_cases hhash : pyStartsWith w "#" = true
        · constructor
          · intro names h
            simp only [specTagScan] at h
            rw [if_pos hhash] at h
            simp only [Option.some.injEq] at h
            subst h
            refine ⟨[], ?_, rfl, by simp⟩
            simp only [tagWords]
            rw [if_neg hat, if_pos hhash]
          · intro h
            simp only [specTagScan] at h
            rw [if_pos hhash] at h
            simp at h
        · constructor
          · intro names h
            simp only [specTagScan] at h
            rw [if_neg hhash, if_neg hat] at h
            simp at h
          · intro _
            refine ⟨w, ?_⟩
            simp only [tagWords]
            rw [if_neg hat, if_neg hhash]

/-- C6: on a line beginning with `@`, tag parsing splits the line on
whitespace and scans the words in order: a `#` word ends the scan as a
trailing comment, an `@` word contributes its `@`-stripped form (in order,
duplicates preserved), and any other word raises the bad-tag ParserError.
The closed conjunct checks the round trip on "@a @b  @c  # comment". -/
theorem c6_tag_line_parsing :
    (∀ (st : PState) (line : String), pyStartsWith line "@" = true →
      ((∀ names, specTagScan (pySplitWs line) = some names →
        ∃ ts, parse_tags st line = .ok ts ∧ ts.map Tag.name = names ∧ ∀ t ∈ ts, t.line = st.line) ∧
       (specTagScan (pySplitWs line) = none →
        ∃ w, parse_tags st line = .error
          (.raised ("tag: " ++ w ++ " (line: " ++ line ++ ")") st.line)))) ∧
    parse_tags { resetState "en" langEn with line := 1 } "@a @b  @c  # comment" =
      .ok [⟨"a", 1⟩, ⟨"b", 1⟩, ⟨"c", 1⟩] := by
  constructor
  · intro st line hat
    have := tagWords_vs_spec line st.line (pySplitWs line)
    constructor
    · intro names h
      obtain ⟨ts, hts, hnm, hln⟩ := this.1 names h
      exact ⟨ts, by simp only [parse_tags, hat, if_pos, hts], hnm, hln⟩
    · intro h
      obtain ⟨w, hw⟩ := this.2 h
      exact ⟨w, by simp only [parse_tags, hat, if_pos, hw]⟩
  · rfl

/-- Witness for C6: instantiating the scan correspondence on the concrete
line "@x @y" yields the tags x and y. -/
theorem c6_witness :
    ∃ ts, parse_tags (resetState "en" langEn) "@x @y" = .ok ts ∧
      ts.map Tag.name = ["x", "y"] ∧ ∀ t ∈ ts, t.line = 0 := by
  exact (c6_tag_line_parsing.1 (resetState "en" langEn) "@x @y" (by rfl)).1 ["x", "y"] (by rfl)

/-- C7 (spec-modelled keyword table): selecting a language tag that is not
a key of the keyword table fails with the `LanguageNotSupported` error and
nothing else — via the constructor's language argument (the lookup in
`reset` fails before any line is processed) and via an initial
`# language: <tag>` comment line (the second conjunct characterizes the
comment branch of `action`; the third checks a whole-file run). -/
theorem c7_language_not_supported :
    (∀ (lang text : String), i18n_languages lang = none →
      parseFeature (some lang) text = .error (.languageNotSupported lang)) ∧
    (∀ (st : PState) (line lang : String),
      st.state = .initialSt → st.tags = [] → st.variant = "feature" →
      pyStartsWith (pyStrip line) "#" = true →
      pyStartsWith (pyLower (pyLstrip (commentBody line))) "language:" = true →
      pyStrip (pyDrop (commentBody line) 9) = lang →
      i18n_languages lang = none →
      action st line = .error (.languageNotSupported lang)) ∧
    parseFeature none "# language: xx\nFeature: F\n" = .error (.languageNotSupported "xx") := by
  refine ⟨?_, ?_, ?_⟩
  · intro lang text h
    simp only [parseFeature, reset, Option.getD_some, h]
  · intro st line lang hstate htags hvar hc hdir hlang hi
    unfold commentBody at hdir hlang
    simp only [action]
    rw [if_pos ⟨hc, by rw [hstate]; simp⟩]
    rw [if_neg (by simp [hstate, htags, hvar])]
    rw [if_pos hdir, hlang, hi]
  · rfl

/-- Witness for C7: the unknown language tag "xx" passed to the constructor
fails the parse of a minimal feature with `LanguageNotSupported`, and the
comment branch fails likewise on a concrete state. -/
theorem c7_witness :
    parseFeature (some "xx") "Feature: F\n" = .error (.languageNotSupported "xx") ∧
    action (resetState "en" langEn) "# language: yy" = .error (.languageNotSupported "yy") := by
  constructor
  · exact c7_language_not_supported.1 "xx" "Feature: F\n" (by rfl)
  · exact c7_language_not_supported.2.1 (resetState "en" langEn) "# language: yy" "yy"
      rfl rfl rfl (by rfl) (by rfl) (by rfl) (by rfl)

/-- C8 counterexample: an input in which a second `Background:` statement is
encountered for a Feature that already has a Background parses successfully
(no "Second Background" ParserError): the line "Background: B" is absorbed
as a description line of the open Background "A". -/
theorem c8_counterexample :
    parseFeature none "Feature: F\nBackground: A\nBackground: B\nScenario: S\nGiven x\n" =
      .ok (some { c8Ft ["Background: B"]
                       [{ line := 4, keyword := "Scenario", name := "S",
                          steps := [mkStp 5 "Given" "given" "x"] }] with
                  parserRefSet := true }) := by
  have hs : pySplitLines "Feature: F\nBackground: A\nBackground: B\nScenario: S\nGiven x\n" =
      ["Feature: F", "Background: A", "Background: B", "Scenario: S", "Given x"] := by rfl
  have h1 : parseLine (resetState "en" langEn) "Feature: F" = .ok stF1 := by rfl
  have h2 : parseLine stF1 "Background: A" = .ok c8S2 := by rfl
  have h3 : parseLine c8S2 "Background: B" = .ok c8S3 := by rfl
  have h4 : parseLine c8S3 "Scenario: S" = .ok c8S4 := by rfl
  have h5 : parseLine c8S4 "Given x" = .ok c8S5 := by rfl
  have hr : reset none = .ok (resetState "en" langEn) := by rfl
  have hloop : parse_loop (resetState "en" langEn)
      "Feature: F\nBackground: A\nBackground: B\nScenario: S\nGiven x\n" = .ok c8S5 := by
    unfold parse_loop
    rw [hs]
    simp only [runLines, h1, h2, h3, h4, h5]
    rfl
  simp only [parseFeature, hr, hloop]
  rfl

/-- C8 (amended): a container holds at most one Background object, but a
second `Background:` line while the parser is still filling the first
Background is absorbed as a description line of that Background rather
than rejected (first conjunct, on the concrete input of the
counterexample).  The "Second Background (can have only one)" ParserError
is raised exactly by `_build_background_statement` when it runs (from the
FEATURE or RULE state) while the container's existing background already
has at least one step (second conjunct). -/
theorem c8_second_background :
    bgNameDescr (parseFeature none "Feature: F\nBackground: A\nBackground: B\nScenario: S\nGiven x\n") =
      some ("A", ["Background: B"]) ∧
    (∀ (st : PState) (kw line : String) (bg : Background),
      st.tags = [] → containerBackground st = some bg → bg.steps ≠ [] →
      build_background_statement st kw line =
        .error (.raised "Second Background (can have only one)" st.line)) := by
  constructor
  · have hs : pySplitLines "Feature: F\nBackground: A\nBackground: B\nScenario: S\nGiven x\n" =
        ["Feature: F", "Background: A", "Background: B", "Scenario: S", "Given x"] := by rfl
    have h1 : parseLine (resetState "en" langEn) "Feature: F" = .ok stF1 := by rfl
    have h2 : parseLine stF1 "Background: A" = .ok c8S2 := by rfl
    have h3 : parseLine c8S2 "Background: B" = .ok c8S3 := by rfl
    have h4 : parseLine c8S3 "Scenario: S" = .ok c8S4 := by rfl
    have h5 : parseLine c8S4 "Given x" = .ok c8S5 := by rfl
    have hr : reset none = .ok (resetState "en" langEn) := by rfl
    have hloop : parse_loop (resetState "en" langEn)
        "Feature: F\nBackground: A\nBackground: B\nScenario: S\nGiven x\n" = .ok c8S5 := by
      unfold parse_loop
      rw [hs]
      simp only [runLines, h1, h2, h3, h4, h5]
      rfl
    have hpf : parseFeature none "Feature: F\nBackground: A\nBackground: B\nScenario: S\nGiven x\n" =
        .ok (some { c8Ft ["Background: B"]
                         [{ line := 4, keyword := "Scenario", name := "S",
                            steps := [mkStp 5 "Given" "given" "x"] }] with
                    parserRefSet := true }) := by
      simp only [parseFeature, hr, hloop]
      rfl
    unfold bgNameDescr resultFeature
    rw [hpf]
    rfl
  · intro st kw line bg htags hbg hsteps
    cases hbs : bg.steps with
    | nil => exact absurd hbs hsteps
    | cons a l => simp [build_background_statement, htags, hbg, hbs]

/-- Witness for C8: building a Background statement on a concrete state
whose feature already has a Background with a step raises the "Second
Background" ParserError. -/
theorem c8_witness :
    build_background_statement demoStBg "Background" "Background: X" =
      .error (.raised "Second Background (can have only one)" 0) := by
  exact c8_second_background.2 demoStBg "Background" "Background: X"
    { line := 2, keyword := "Background", name := "",
      steps := [{ line := 3, keyword := "Given", step_type := "given", name := "g" }] }
    rfl (by rfl) (by simp)

/-- C9 counterexample: the Feature returned for "Feature: A\n" does carry a
reference back into the parser: `Parser.parse` sets `feature.parser` to the
parser object before returning (modelled by the `parserRefSet` flag). -/
theorem c9_counterexample :
    parserRefFlag (parseFeature none "Feature: A\n") = some true := by rfl

/-- C9 (amended): the whole-file entry point returns the AST with exactly
one reference back into the parser: every successfully parsed Feature has
its `parser` attribute set to the Parser that produced it
(`feature.parser = self` in `Parser.parse`). -/
theorem c9_parser_backref :
    ∀ (lang : Option String) (text : String) (f : Feature),
      parseFeature lang text = .ok (some f) → f.parserRefSet = true := by
  intro lang text f h
  unfold parseFeature at h
  cases hr : reset lang with
  | error e => simp only [hr] at h; exact absurd h (by simp)
  | ok st0 =>
      simp only [hr] at h
      cases hl : parse_loop st0 text with
      | error e => simp only [hl] at h; exact absurd h (by simp)
      | ok st =>
          simp only [hl] at h
          cases hf : finalFeature st with
          | none => simp only [hf] at h; simp at h
          | some ft =>
              simp only [hf, Except.ok.injEq, Option.some.injEq] at h
              subst h
              rfl

/-- Witness for C9: the feature parsed from "Feature: A\n" has its parser
back-reference set. -/
theorem c9_witness :
    (getFeatureD (parseFeature none "Feature: A\n")).parserRefSet = true := by
  exact c9_parser_backref none "Feature: A\n"
    (getFeatureD (parseFeature none "Feature: A\n")) (by rfl)

/-- C10: when no line of the input fails and no `Feature:` line occurs, the
whole-file entry point returns None (Lean: `.ok none`) and raises no
error — shown for the empty string and for every input consisting only of
blank lines and comment lines (excluding `language:` directives, which
consult the keyword table).  The reason "No feature found." is produced
only when some line is rejected: a rejected first line yields exactly that
rejection, and a parse error carrying any reason string is always a
rejection (only the rejection path of `action` attaches a reason). -/
theorem c10_no_feature_returns_none :
    parseFeature none "" = .ok none ∧
    (∀ text : String,
      (∀ l ∈ pySplitLines text, pyStrip l = "" ∨
        (isCommentLine l = true ∧ isLanguageDirective l = false)) →
      parseFeature none text = .ok none) ∧
    parseFeature none "xyz\n" = .error (.rejected "initial" 1 (some "No feature found.")) ∧
    (∀ e : PErr, errReason e = some "No feature found." → isRejected e = true) := by
  refine ⟨by rfl, ?_, by rfl, ?_⟩
  · intro text htext
    have hrun : ∀ (ls : List String), (∀ l ∈ ls, pyStrip l = "" ∨
        (isCommentLine l = true ∧ isLanguageDirective l = false)) →
        ∀ n, runLines (initAt n) ls = .ok (initAt (n + ls.length)) := by
      intro ls
      induction ls with
      | nil => intro _ n; rw [runLines]; rw [List.length_nil, Nat.add_zero]
      | cons l ls ih =>
          intro h n
          have hl := h l (List.mem_cons_self l ls)
          have hrest := fun l' hl' => h l' (List.mem_cons_of_mem l hl')
          have hstep : parseLine (initAt n) l = .ok (initAt (n + 1)) := by
            rcases hl with hblank | ⟨hcom, hdir⟩
            · simp only [parseLine]
              rw [if_pos ⟨hblank, by simp [initAt, resetState]⟩]
              rfl
            · simp only [parseLine]
              rw [if_neg]
              · unfold isCommentLine at hcom
                unfold isLanguageDirective commentBody at hdir
                simp only [action]
                rw [if_pos ⟨hcom, by simp [initAt, resetState]⟩]
                rw [if_neg (by simp [initAt, resetState])]
                rw [if_neg (by simp [hdir])]
                rfl
              · intro hcontra
                rcases hcontra with ⟨hb, _⟩
                unfold isCommentLine at hcom
                rw [hb] at hcom
                simp [pyStartsWith, pyStrip, List.isPrefixOf] at hcom
          rw [runLines, hstep]
          have harith : n + (l :: ls).length = (n + 1) + ls.length := by
            simp only [List.length_cons]
            omega
          rw [harith]
          exact ih hrest (n + 1)
    have h0 : runLines (resetState "en" langEn) (pySplitLines text) =
        .ok (initAt (0 + (pySplitLines text).length)) :=
      hrun (pySplitLines text) htext 0
    have hr : reset none = .ok (resetState "en" langEn) := by rfl
    simp only [parseFeature, hr, parse_loop, h0]
    rfl
  · intro e h
    cases e <;> simp [errReason, isRejected] at h ⊢

/-- Witness for C10: a concrete input of blank and comment lines parses to
None without an error. -/
theorem c10_witness :
    parseFeature none "\n  \n# a comment\n" = .ok none := by
  exact c10_no_feature_returns_none.2.1 "\n  \n# a comment\n" (by decide)

-- Rectangularity invariant: preservation lemmas for the statement update
-- helpers, the builders and the state handlers, leading to claim C3.

/-- `updateLast` preserves `List.all` under a pointwise-preserving map. -/
theorem all_updateLast {p : α → Bool} {f : α → α} {l : List α}
    (hl : l.all p = true) (hf : ∀ x, p x = true → p (f x) = true) :
    (updateLast f l).all p = true := by
  induction l using List.reverseRecOn with
  | nil => rfl
  | append_singleton as a _ =>
      rw [updateLast_concat]
      rw [List.all_append] at hl ⊢
      simp only [Bool.and_eq_true] at hl ⊢
      refine ⟨hl.1, ?_⟩
      have := hf a (by simpa using hl.2)
      simpa using this

/-- Background updates that preserve background-table rectangularity
preserve the state invariant. -/
theorem inv_withContainerBackground {st : PState} {f : Background → Background} {st' : PState}
    (hInv : InvB st = true) (hf : ∀ bg, bgTablesOk bg = true → bgTablesOk (f bg) = true)
    (h : withContainerBackground st f = .ok st') : InvB st' = true := by
  unfold withContainerBackground at h
  cases hc : st.scenario_container <;> simp only [hc] at h
  case noneC => simp at h
  case featureC =>
    cases hft : st.feature <;> simp only [hft] at h
    case none => simp at h
    case some ft =>
      cases hbg : ft.background <;> simp only [hbg] at h
      case none => simp at h
      case some bg =>
        injection h with h
        subst h
        simp only [InvB, invCore, featureTablesRect, optB, hft, hbg, Bool.and_eq_true] at hInv ⊢
        have hfb := hf bg
        tauto
  case ruleC =>
    cases hru : st.currentRule <;> simp only [hru] at h
    case none => simp at h
    case some ru =>
      cases hbg : ru.background <;> simp only [hbg] at h
      case none => simp at h
      case some bg =>
        injection h with h
        subst h
        simp only [InvB, invCore, ruleTablesOk, optB, hru, hbg, Bool.and_eq_true] at hInv ⊢
        have hfb := hf bg
        tauto

/-- Updates of the container's last scenario that preserve scenario-table
rectangularity preserve the state invariant. -/
theorem inv_withLastScenario0 {st : PState} {f : Scenario0 → Scenario0} {st' : PState}
    (hInv : InvB st = true)
    (hf : ∀ sc, scenarioTablesOk sc = true → scenarioTablesOk (f sc) = true)
    (h : withLastScenario0 st f = .ok st') : InvB st' = true := by
  unfold withLastScenario0 at h
  cases hc : st.scenario_container <;> simp only [hc] at h
  case noneC => simp at h
  case featureC =>
    cases hft : st.feature <;> simp only [hft] at h
    case none => simp at h
    case some ft =>
      injection h with h
      subst h
      simp only [InvB, invCore, featureTablesRect, optB, hft, Bool.and_eq_true] at hInv ⊢
      have hup : ft.scenarios.all scenarioTablesOk = true →
          (updateLast f ft.scenarios).all scenarioTablesOk = true :=
        fun hl => all_updateLast hl hf
      tauto
  case ruleC =>
    cases hru : st.currentRule <;> simp only [hru] at h
    case none => simp at h
    case some ru =>
      injection h with h
      subst h
      simp only [InvB, invCore, ruleTablesOk, optB, hru, Bool.and_eq_true] at hInv ⊢
      have hup : ru.scenarios.all scenarioTablesOk = true →
          (updateLast f ru.scenarios).all scenarioTablesOk = true :=
        fun hl => all_updateLast hl hf
      tauto

/-- Step-list updates that preserve step-table rectangularity preserve the
state invariant. -/
theorem inv_withStatementSteps {st : PState} {g : List Step → List Step} {st' : PState}
    (hInv : InvB st = true)
    (hg : ∀ steps : List Step, steps.all stepTablesOk = true → (g steps).all stepTablesOk = true)
    (h : withStatementSteps st g = .ok st') : InvB st' = true := by
  unfold withStatementSteps at h
  cases hstmt : st.statement <;> simp only [hstmt] at h
  case noneR => simp at h
  case ruleR => simp at h
  case backgroundR =>
      refine inv_withContainerBackground hInv ?_ h
      intro bg hbg
      simp only [bgTablesOk, Bool.and_eq_true] at hbg ⊢
      exact ⟨hg bg.steps hbg.1, hbg.2⟩
  case scenarioR =>
      refine inv_withLastScenario0 hInv ?_ h
      intro sc hsc
      simp only [scenarioTablesOk, Bool.and_eq_true] at hsc ⊢
      exact ⟨hg sc.steps hsc.1, hsc.2⟩
  case freeR =>
      cases hfs : st.freeScenario <;> simp only [hfs] at h
      case none => simp at h
      case some sc =>
        injection h with h
        subst h
        simp only [InvB, invCore, scenarioTablesOk, optB, hfs, Bool.and_eq_true] at hInv ⊢
        have hgs := hg sc.steps
        tauto

/-- Last-step updates that preserve step-table rectangularity preserve the
state invariant. -/
theorem inv_withStatementLastStep {st : PState} {f : Step → Step} {st' : PState}
    (hInv : InvB st = true) (hf : ∀ s, stepTablesOk s = true → stepTablesOk (f s) = true)
    (h : withStatementLastStep st f = .ok st') : InvB st' = true := by
  unfold withStatementLastStep at h
  cases hss : statementSteps st <;> simp only [hss] at h
  case error => simp at h
  case ok steps =>
      cases steps with
      | nil => simp at h
      | cons s ss =>
          exact inv_withStatementSteps hInv (fun l hl => all_updateLast hl hf) h

/-- Description updates never touch tables, so they preserve the state
invariant. -/
theorem inv_withStatementDescription {st : PState} {f : List String → List String} {st' : PState}
    (hInv : InvB st = true) (h : withStatementDescription st f = .ok st') : InvB st' = true := by
  unfold withStatementDescription at h
  cases hstmt : st.statement <;> simp only [hstmt] at h
  case noneR => simp at h
  case ruleR =>
      cases hru : st.currentRule <;> simp only [hru] at h
      case none => simp at h
      case some ru =>
        injection h with h
        subst h
        simp only [InvB, invCore, ruleTablesOk, optB, hru, Bool.and_eq_true] at hInv ⊢
        exact hInv
  case backgroundR =>
      exact inv_withContainerBackground
        (f := fun bg => { bg with description := f bg.description }) hInv (fun bg hbg => hbg) h
  case scenarioR =>
      exact inv_withLastScenario0
        (f := fun sc => { sc with description := f sc.description }) hInv (fun sc hsc => hsc) h
  case freeR =>
      cases hfs : st.freeScenario <;> simp only [hfs] at h
      case none => simp at h
      case some sc =>
        injection h with h
        subst h
        simp only [InvB, invCore, scenarioTablesOk, optB, hfs, Bool.and_eq_true] at hInv ⊢
        exact hInv

/-- Examples-list updates that preserve examples-table rectangularity
preserve the state invariant. -/
theorem inv_withStatementExamples {st : PState} {g : List Examples → List Examples} {st' : PState}
    (hInv : InvB st = true)
    (hg : ∀ exs : List Examples, exs.all (fun e => optB rectB e.table) = true →
      (g exs).all (fun e => optB rectB e.table) = true)
    (h : withStatementExamples st g = .ok st') : InvB st' = true := by
  unfold withStatementExamples at h
  cases hstmt : st.statement <;> simp only [hstmt] at h
  case noneR => simp at h
  case ruleR => simp at h
  case backgroundR => simp at h
  case scenarioR =>
      refine inv_withLastScenario0 hInv ?_ h
      intro sc hsc
      simp only [scenarioTablesOk, Bool.and_eq_true] at hsc ⊢
      exact ⟨hsc.1, hg sc.examples hsc.2⟩
  case freeR =>
      cases hfs : st.freeScenario <;> simp only [hfs] at h
      case none => simp at h
      case some sc =>
        injection h with h
        subst h
        simp only [InvB, invCore, scenarioTablesOk, optB, hfs, Bool.and_eq_true] at hInv ⊢
        have hge := hg sc.examples
        tauto

/-- Under the invariant the feature's background steps have rectangular
tables. -/
theorem featureBackgroundSteps_ok {st : PState} (hInv : InvB st = true) :
    (featureBackgroundSteps st).all stepTablesOk = true := by
  unfold featureBackgroundSteps
  split
  · split
    · simp_all [InvB, invCore, featureTablesRect, bgTablesOk, optB, Bool.and_eq_true]
    · rfl
  · rfl

/-- Building a feature preserves the invariant. -/
theorem inv_build_feature {st : PState} (kw line : String) (hInv : InvB st = true) :
    InvB (build_feature st kw line) = true := by
  unfold build_feature
  simp only [InvB, invCore, optB, featureTablesRect, List.all_nil, Bool.and_eq_true] at hInv ⊢
  simp_all

/-- Setting the current rule (with rectangular tables) after the optional
flush preserves the invariant. -/
theorem inv_set_rule {st : PState} {rule : Rule} (hInv : InvB st = true)
    (hr : ruleTablesOk rule = true) (rif : Bool) :
    InvB { st with currentRule := some rule, ruleInFeature := rif,
                   scenario_container := .ruleC, statement := .ruleR, tags := [] } = true := by
  simp only [InvB, invCore, optB, Bool.and_eq_true] at hInv ⊢
  tauto

/-- Flushing the closed current rule into the feature preserves the
invariant. -/
theorem inv_flush_rule {st : PState} {old : Rule} {ft : Feature}
    (hInv : InvB st = true) (hru : st.currentRule = some old) (hft : st.feature = some ft) :
    InvB { st with feature := some { ft with rules := ft.rules ++ [old] } } = true := by
  simp only [InvB, invCore, optB, featureTablesRect, hru, hft, List.all_append,
             List.all_cons, List.all_nil, Bool.and_eq_true] at hInv ⊢
  tauto

/-- Building a rule statement preserves the invariant: the flushed previous
rule was covered by the invariant, and the new rule's default background
carries the feature's background steps, which are covered as well. -/
theorem inv_build_rule_statement {st : PState} (kw line : String) (hInv : InvB st = true) :
    InvB (build_rule_statement st kw line) = true := by
  have hin := featureBackgroundSteps_ok hInv
  unfold build_rule_statement
  split
  · rename_i old ft hru hrif hft
    exact inv_set_rule (inv_flush_rule hInv hru hft)
      (by simp [ruleTablesOk, bgTablesOk, optB, hin]) _
  · exact inv_set_rule hInv (by simp [ruleTablesOk, bgTablesOk, optB, hin]) _

/-- Adding a background with rectangular tables to the container preserves
the invariant. -/
theorem inv_containerAddBackground {st : PState} {bg : Background} {st' : PState}
    (hInv : InvB st = true) (hbg : bg.steps.all stepTablesOk = true)
    (hbgi : bg.inherited_steps.all stepTablesOk = true)
    (h : containerAddBackground st bg = .ok st') : InvB st' = true := by
  unfold containerAddBackground at h
  cases hc : st.scenario_container <;> simp only [hc] at h
  case noneC => simp at h
  case featureC =>
    cases hft : st.feature <;> simp only [hft] at h
    case none => simp at h
    case some ft =>
      injection h with h
      subst h
      simp only [InvB, invCore, featureTablesRect, bgTablesOk, optB, hft,
                 Bool.and_eq_true] at hInv ⊢
      tauto
  case ruleC =>
    cases hru : st.currentRule <;> simp only [hru] at h
    case none => simp at h
    case some ru =>
      injection h with h
      subst h
      simp only [InvB, invCore, ruleTablesOk, bgTablesOk, optB, hru,
                 Bool.and_eq_true] at hInv ⊢
      tauto

/-- Adding a scenario with rectangular tables to the container preserves
the invariant. -/
theorem inv_containerAddScenario0 {st : PState} {sc : Scenario0} {st' : PState}
    (hInv : InvB st = true) (hsc : scenarioTablesOk sc = true)
    (h : containerAddScenario0 st sc = .ok st') : InvB st' = true := by
  unfold containerAddScenario0 at h
  cases hc : st.scenario_container <;> simp only [hc] at h
  case noneC => simp at h
  case featureC =>
    cases hft : st.feature <;> simp only [hft] at h
    case none => simp at h
    case some ft =>
      injection h with h
      subst h
      simp only [InvB, invCore, featureTablesRect, optB, hft, List.all_append,
                 List.all_cons, List.all_nil, Bool.and_eq_true] at hInv ⊢
      tauto
  case ruleC =>
    cases hru : st.currentRule <;> simp only [hru] at h
    case none => simp at h
    case some ru =>
      injection h with h
      subst h
      simp only [InvB, invCore, ruleTablesOk, optB, hru, List.all_append,
                 List.all_cons, List.all_nil, Bool.and_eq_true] at hInv ⊢
      tauto

/-- Building a background statement preserves the invariant. -/
theorem inv_build_background_statement {st : PState} {kw line : String} {st' : PState}
    (hInv : InvB st = true) (h : build_background_statement st kw line = .ok st') :
    InvB st' = true := by
  unfold build_background_statement at h
  simp only [] at h
  split at h
  · simp at h
  · split at h
    · simp at h
    · split at h
      · simp at h
      · rename_i st1 heq
        injection h with h
        subst h
        have hI := inv_containerAddBackground hInv (by rfl) (by rfl) heq
        exact hI

/-- Building a scenario statement preserves the invariant. -/
theorem inv_build_scenario_statement {st : PState} {kw line : String} {st' : PState}
    (hInv : InvB st = true) (h : build_scenario_statement st kw line = .ok st') :
    InvB st' = true := by
  unfold build_scenario_statement at h
  simp only [] at h
  split at h
  · injection h with h
    subst h
    simp only [InvB, invCore, scenarioTablesOk, optB, List.all_nil, Bool.and_eq_true] at hInv ⊢
    simp_all
  · split at h
    · simp at h
    · rename_i st1 heq
      injection h with h
      subst h
      have hI := inv_containerAddScenario0 hInv (by rfl) heq
      exact hI

/-- Building a scenario-outline statement preserves the invariant. -/
theorem inv_build_scenario_outline_statement {st : PState} {kw line : String} {st' : PState}
    (hInv : InvB st = true) (h : build_scenario_outline_statement st kw line = .ok st') :
    InvB st' = true := by
  unfold build_scenario_outline_statement at h
  simp only [] at h
  split at h
  · simp at h
  · rename_i st1 heq
    injection h with h
    subst h
    have hI := inv_containerAddScenario0 hInv (by rfl) heq
    exact hI

/-- Building an examples block preserves the invariant (the new block has
no table yet). -/
theorem inv_build_examples {st : PState} {kw line : String} {st' : PState}
    (hInv : InvB st = true) (h : build_examples st kw line = .ok st') : InvB st' = true := by
  unfold build_examples at h
  simp only [] at h
  split at h
  · simp at h
  · split at h
    · simp at h
    · rename_i st1 heq
      injection h with h
      subst h
      have hI : InvB st1 = true := by
        refine inv_withStatementExamples hInv ?_ heq
        intro exs hexs
        rw [List.all_append]
        simp_all [optB]
      exact hI

/-- A successfully parsed step only changes `last_step_type`, so the
invariant persists, and the fresh step has no table. -/
theorem inv_parse_step {st : PState} {line : String} {stp : Step} {st' : PState}
    (hInv : InvB st = true) (h : parse_step st line = .ok (some (stp, st'))) :
    InvB st' = true ∧ stepTablesOk stp = true := by
  unfold parse_step at h
  cases hfk : findStepKeyword st.keywords line with
  | none => simp only [hfk] at h; simp at h
  | some p =>
      obtain ⟨stype, kw⟩ := p
      simp only [hfk] at h
      cases hlast : st.last_step_type with
      | some t =>
          simp only [hlast] at h
          split at h
          · simp only [Except.ok.injEq, Option.some.injEq, Prod.mk.injEq] at h
            obtain ⟨h1, h2⟩ := h
            subst h1
            subst h2
            exact ⟨hInv, rfl⟩
          · split at h <;>
              (simp only [Except.ok.injEq, Option.some.injEq, Prod.mk.injEq] at h;
               obtain ⟨h1, h2⟩ := h; subst h1; subst h2; exact ⟨hInv, rfl⟩)
      | none =>
          simp only [hlast] at h
          split at h
          · split at h
            · simp only [Except.ok.injEq, Option.some.injEq, Prod.mk.injEq] at h
              obtain ⟨h1, h2⟩ := h
              subst h1
              subst h2
              exact ⟨hInv, rfl⟩
            · simp at h
          · simp only [Except.ok.injEq, Option.some.injEq, Prod.mk.injEq] at h
            obtain ⟨h1, h2⟩ := h
            subst h1
            subst h2
            exact ⟨hInv, rfl⟩

/-- The taggable-statement detection preserves the invariant. -/
theorem inv_subaction {st : PState} {line : String} {b : Bool} {st' : PState}
    (hInv : InvB st = true)
    (h : subaction_detect_taggable_statement st line = .ok (b, st')) : InvB st' = true := by
  unfold subaction_detect_taggable_statement at h
  split at h
  · -- tag line
    split at h
    · simp at h
    · injection h with h
      injection h with _ h
      subst h
      exact hInv
  · -- keyword dispatch
    split at h
    · injection h with h
      injection h with _ h
      subst h
      exact inv_build_rule_statement _ _ hInv
    · split at h
      · split at h
        · simp at h
        · rename_i st1 heq
          injection h with h
          injection h with _ h
          subst h
          have hI := inv_build_scenario_statement hInv heq
          exact hI
      · split at h
        · split at h
          · simp at h
          · rename_i st1 heq
            injection h with h
            injection h with _ h
            subst h
            have hI := inv_build_scenario_outline_statement hInv heq
            exact hI
        · split at h
          · split at h
            · simp at h
            · rename_i st1 heq
              injection h with h
              injection h with _ h
              subst h
              have hI := inv_build_examples hInv heq
              exact hI
          · injection h with h
            injection h with _ h
            subst h
            exact hInv

/-- Step-name normalization never changes the step's table. -/
theorem stepTablesOk_normalize (s : Step) :
    stepTablesOk (normalize_step_name s) = stepTablesOk s := by
  rw [normalize_step_name_id]

/-- The invariant includes rectangularity of the open table. -/
theorem invB_table {st : PState} (hInv : InvB st = true) : optB rectB st.table = true := by
  simp only [InvB, invCore, Bool.and_eq_true] at hInv
  exact hInv.2

/-- Dropping the open table preserves the invariant. -/
theorem invB_set_table_none {st : PState} (hInv : InvB st = true) :
    InvB { st with table := none } = true := by
  simp only [InvB, invCore, Bool.and_eq_true] at hInv ⊢
  exact ⟨hInv.1, rfl⟩

/-- The INITIAL state handler preserves the invariant. -/
theorem inv_action_initial {st : PState} {line : String} {b : Bool} {st' : PState}
    (hInv : InvB st = true) (h : action_initial st line = .ok (b, st')) : InvB st' = true := by
  unfold action_initial at h
  simp only [] at h
  split at h
  · split at h
    · simp at h
    · injection h with h
      injection h with _ h
      subst h
      exact hInv
  · split at h
    · rename_i kw hkw
      injection h with h
      injection h with _ h
      subst h
      exact inv_build_feature kw (pyStrip line) hInv
    · injection h with h
      injection h with _ h
      subst h
      exact hInv

/-- The FEATURE state handler preserves the invariant. -/
theorem inv_action_feature {st : PState} {line : String} {b : Bool} {st' : PState}
    (hInv : InvB st = true) (h : action_feature st line = .ok (b, st')) : InvB st' = true := by
  unfold action_feature at h
  simp only [] at h
  split at h
  · simp at h
  · rename_i st1 heq
    injection h with h
    injection h with _ h
    subst h
    exact inv_subaction hInv heq
  · split at h
    · split at h
      · simp at h
      · rename_i st1 heq
        injection h with h
        injection h with _ h
        subst h
        have hI := inv_build_background_statement hInv heq
        exact hI
    · split at h
      · rename_i ft hft
        injection h with h
        injection h with _ h
        subst h
        simp only [InvB, invCore, optB, featureTablesRect, hft, Bool.and_eq_true] at hInv ⊢
        tauto
      · simp at h

/-- The RULE state handler preserves the invariant. -/
theorem inv_action_rule {st : PState} {line : String} {b : Bool} {st' : PState}
    (hInv : InvB st = true) (h : action_rule st line = .ok (b, st')) : InvB st' = true := by
  unfold action_rule at h
  simp only [] at h
  split at h
  · simp at h
  · rename_i st1 heq
    injection h with h
    injection h with _ h
    subst h
    exact inv_subaction hInv heq
  · split at h
    · split at h
      · simp at h
      · rename_i st1 heq
        injection h with h
        injection h with _ h
        subst h
        have hI := inv_build_background_statement hInv heq
        exact hI
    · split at h
      · rename_i r hru
        injection h with h
        injection h with _ h
        subst h
        simp only [InvB, invCore, optB, ruleTablesOk, hru, Bool.and_eq_true] at hInv ⊢
        tauto
      · simp at h

/-- The BACKGROUND and SCENARIO state handlers preserve the invariant. -/
theorem inv_action_scenario0 {st : PState} {line : String} {b : Bool} {st' : PState}
    (hInv : InvB st = true) (h : action_scenario0 st line = .ok (b, st')) : InvB st' = true := by
  unfold action_scenario0 at h
  simp only [] at h
  split at h
  · simp at h
  · rename_i stp st1 heq
    obtain ⟨hI1, hstp⟩ := inv_parse_step (by exact hInv) heq
    split at h
    · simp at h
    · rename_i st2 heq2
      injection h with h
      injection h with _ h
      subst h
      refine inv_withStatementSteps ?_ ?_ heq2
      · exact hI1
      · intro steps hs
        rw [List.all_append]
        simp [hs, hstp]
  · split at h
    · simp at h
    · rename_i st1 heq
      injection h with h
      injection h with _ h
      subst h
      exact inv_subaction (by exact hInv) heq
    · split at h
      · simp at h
      · rename_i st1 heq
        injection h with h
        injection h with _ h
        subst h
        exact inv_withStatementDescription (by exact hInv) heq

/-- The TAGGABLE_STATEMENT state handler preserves the invariant. -/
theorem inv_action_taggable {st : PState} {line : String} {b : Bool} {st' : PState}
    (hInv : InvB st = true) (h : action_taggable_statement st line = .ok (b, st')) :
    InvB st' = true := by
  unfold action_taggable_statement at h
  exact inv_subaction hInv h

/-- The MULTILINE_TEXT state handler preserves the invariant. -/
theorem inv_action_multiline {st : PState} {line : String} {b : Bool} {st' : PState}
    (hInv : InvB st = true) (h : action_multiline_text st line = .ok (b, st')) :
    InvB st' = true := by
  unfold action_multiline_text at h
  split at h
  · simp at h
  · split at h
    · split at h
      · simp at h
      · rename_i st1 heq
        injection h with h
        injection h with _ h
        subst h
        have hI := inv_withStatementLastStep hInv
          (fun s hs => by rw [stepTablesOk_normalize]; exact hs) heq
        exact hI
    · simp only [] at h
      split at h
      · simp at h
      · injection h with h
        injection h with _ h
        subst h
        exact hInv

/-- The STEPS and TABLE state handlers preserve the invariant, for any
recursion fuel (mutual induction on the fuel): a pipe row keeps the table
rectangular, and a close line binds the rectangular table to the open
Examples block or the last step. -/
theorem inv_steps_table (fuel : Nat) :
    (∀ (st : PState) (line : String) (b : Bool) (st' : PState), InvB st = true →
        action_steps fuel st line = .ok (b, st') → InvB st' = true) ∧
    (∀ (st : PState) (line : String) (b : Bool) (st' : PState), InvB st = true →
        action_table fuel st line = .ok (b, st') → InvB st' = true) := by
  induction fuel with
  | zero =>
      constructor
      · intro st line b st' hInv h
        unfold action_steps at h
        simp only [] at h
        split at h
        · split at h
          · simp at h
          · split at h
            · simp at h
            · injection h with h
              injection h with _ h
              subst h
              exact hInv
        · split at h
          · simp at h
          · rename_i stp st1 heq
            obtain ⟨hI1, hstp⟩ := inv_parse_step (by exact hInv) heq
            split at h
            · simp at h
            · rename_i st2 heq2
              injection h with h
              injection h with _ h
              subst h
              refine inv_withStatementSteps ?_ ?_ heq2
              · exact hI1
              · intro steps hs
                rw [List.all_append]
                simp [hs, hstp]
          · split at h
            · simp at h
            · rename_i st1 heq
              injection h with h
              injection h with _ h
              subst h
              exact inv_subaction hInv heq
            · split at h
              · split at h
                · simp at h
                · split at h
                  · simp at h
                  · simp at h
              · injection h with h
                injection h with _ h
                subst h
                exact hInv
      · intro st line b st' hInv h
        unfold action_table at h
        simp only [] at h
        split at h
        · split at h
          · simp at h
          · simp at h
        · split at h
          · rename_i htbl
            injection h with h
            injection h with _ h
            subst h
            simp only [InvB, invCore, Bool.and_eq_true] at hInv ⊢
            exact ⟨hInv.1, rfl⟩
          · rename_i tbl htbl
            split at h
            · simp at h
            · rename_i hlen
              injection h with h
              injection h with _ h
              subst h
              have hlen2 := not_not.mp hlen
              simp only [InvB, invCore, Bool.and_eq_true] at hInv ⊢
              refine ⟨hInv.1, ?_⟩
              have hrect := hInv.2
              rw [htbl] at hrect
              simp only [optB, rectB, List.all_append, List.all_cons, List.all_nil,
                         Bool.and_eq_true] at hrect ⊢
              simp [hrect, hlen2]
  | succ f ih =>
      constructor
      · intro st line b st' hInv h
        unfold action_steps at h
        simp only [] at h
        split at h
        · split at h
          · simp at h
          · split at h
            · simp at h
            · injection h with h
              injection h with _ h
              subst h
              exact hInv
        · split at h
          · simp at h
          · rename_i stp st1 heq
            obtain ⟨hI1, hstp⟩ := inv_parse_step (by exact hInv) heq
            split at h
            · simp at h
            · rename_i st2 heq2
              injection h with h
              injection h with _ h
              subst h
              refine inv_withStatementSteps ?_ ?_ heq2
              · exact hI1
              · intro steps hs
                rw [List.all_append]
                simp [hs, hstp]
          · split at h
            · simp at h
            · rename_i st1 heq
              injection h with h
              injection h with _ h
              subst h
              exact inv_subaction hInv heq
            · split at h
              · split at h
                · simp at h
                · split at h
                  · simp at h
                  · exact ih.2 _ _ _ _ (by exact hInv) h
              · injection h with h
                injection h with _ h
                subst h
                exact hInv
      · intro st line b st' hInv h
        unfold action_table at h
        simp only [] at h
        split at h
        · split at h
          · simp at h
          · rename_i st0 heq
            have hI0 : InvB st0 = true := by
              cases hex : st.examplesOpen
              case false =>
                rw [hex] at heq
                rw [if_neg (by simp)] at heq
                exact inv_withStatementLastStep hInv (fun s hs => by
                  rw [stepTablesOk_normalize]
                  simpa [stepTablesOk] using invB_table hInv) heq
              case true =>
                rw [hex] at heq
                rw [if_pos rfl] at heq
                split at heq
                · simp at heq
                · rename_i st2 heq2
                  injection heq with heq
                  subst heq
                  have hI2 : InvB st2 = true := by
                    refine inv_withStatementExamples hInv ?_ heq2
                    intro exs he
                    refine all_updateLast he ?_
                    intro e hee
                    simpa using invB_table hInv
                  exact hI2
            have hI3 : InvB { st0 with table := none, state := ParseState.stepsSt } = true := by
              exact invB_set_table_none
                ((by exact hI0) : InvB { st0 with state := ParseState.stepsSt } = true)
            exact ih.1 _ _ _ _ hI3 h
        · split at h
          · rename_i htbl
            injection h with h
            injection h with _ h
            subst h
            simp only [InvB, invCore, Bool.and_eq_true] at hInv ⊢
            exact ⟨hInv.1, rfl⟩
          · rename_i tbl htbl
            split at h
            · simp at h
            · rename_i hlen
              injection h with h
              injection h with _ h
              subst h
              have hlen2 := not_not.mp hlen
              simp only [InvB, invCore, Bool.and_eq_true] at hInv ⊢
              refine ⟨hInv.1, ?_⟩
              have hrect := hInv.2
              rw [htbl] at hrect
              simp only [optB, rectB, List.all_append, List.all_cons, List.all_nil,
                         Bool.and_eq_true] at hrect ⊢
              simp [hrect, hlen2]

/-- The action dispatcher preserves the invariant: comment handling leaves
the AST untouched and every state handler preserves it. -/
theorem inv_action {st : PState} {line : String} {st' : PState}
    (hInv : InvB st = true) (h : action st line = .ok st') : InvB st' = true := by
  unfold action at h
  split at h
  · split at h
    · injection h with h
      subst h
      exact hInv
    · simp only [] at h
      split at h
      · split at h
        · injection h with h
          subst h
          exact hInv
        · simp at h
      · injection h with h
        subst h
        exact hInv
  · simp only [] at h
    cases hst : st.state <;> simp only [hst] at h <;>
      first
        | (split at h
           · simp at h
           · rename_i st1 heq
             injection h with h
             subst h
             first
               | exact inv_action_initial hInv heq
               | exact inv_action_feature hInv heq
               | exact inv_action_rule hInv heq
               | exact inv_action_scenario0 hInv heq
               | exact inv_action_taggable hInv heq
               | exact (inv_steps_table 2).1 _ _ _ _ hInv heq
               | exact inv_action_multiline hInv heq
               | exact (inv_steps_table 2).2 _ _ _ _ hInv heq
           · simp at h)
        | simp at h

/-- One loop-body step preserves the invariant. -/
theorem inv_parseLine {st : PState} {line : String} {st' : PState}
    (hInv : InvB st = true) (h : parseLine st line = .ok st') : InvB st' = true := by
  unfold parseLine at h
  simp only [] at h
  split at h
  · injection h with h
    subst h
    exact hInv
  · exact inv_action (by exact hInv) h

/-- Running the line loop preserves the invariant. -/
theorem inv_runLines {st : PState} {ls : List String} {st' : PState}
    (hInv : InvB st = true) (h : runLines st ls = .ok st') : InvB st' = true := by
  induction ls generalizing st with
  | nil =>
      unfold runLines at h
      injection h with h
      subst h
      exact hInv
  | cons l ls ih =>
      unfold runLines at h
      split at h
      · simp at h
      · rename_i st1 heq
        exact ih (inv_parseLine hInv heq) h

/-- The freshly reset parser state satisfies the invariant. -/
theorem inv_reset {language : Option String} {st0 : PState}
    (h : reset language = .ok st0) : InvB st0 = true := by
  unfold reset at h
  simp only [] at h
  split at h
  · injection h with h
    subst h
    rfl
  · simp at h

/-- The whole parse loop (including the end-of-file close of a still-open
table) preserves the invariant. -/
theorem inv_parse_loop {st : PState} {text : String} {st' : PState}
    (hInv : InvB st = true) (h : parse_loop st text = .ok st') : InvB st' = true := by
  unfold parse_loop at h
  split at h
  · simp at h
  · rename_i st1 heq
    have hI1 := inv_runLines hInv heq
    split at h
    · split at h
      · simp at h
      · rename_i b2 st2 heq2
        injection h with h
        subst h
        exact (inv_steps_table 2).2 _ _ _ _ hI1 heq2
    · injection h with h
      subst h
      exact hI1

/-- The flushed final feature of an invariant-satisfying state has
rectangular tables everywhere. -/
theorem finalFeature_rect {st : PState} {ft : Feature}
    (hInv : InvB st = true) (h : finalFeature st = some ft) : featureTablesRect ft = true := by
  unfold finalFeature at h
  split at h
  · simp at h
  · rename_i ft0 hft
    split at h
    · rename_i r hru hrif
      injection h with h
      subst h
      simp only [InvB, invCore, optB, hft, hru, featureTablesRect, List.all_append,
                 List.all_cons, List.all_nil, Bool.and_eq_true] at hInv ⊢
      tauto
    · injection h with h
      subst h
      simp only [InvB, invCore, optB, hft, Bool.and_eq_true] at hInv
      exact hInv.1.1.1

/-- C3: every Table produced by a successful whole-file parse is
rectangular.  The first pipe row of a table becomes its headings; a later
row with as many cells as the headings is appended, and the invariant
carried through the parse loop makes every table of the returned feature
rectangular; a row with a different cell count fails the parse with the
ParserError "Malformed table". -/
theorem c3_tables_rectangular :
    (∀ (language : Option String) (text : String) (ft : Feature),
        parseFeature language text = .ok (some ft) → featureTablesRect ft = true) ∧
    (∀ (fuel : Nat) (st : PState) (line : String),
        st.table = none → pyStartsWith (pyStrip line) "|" = true →
        action_table fuel st line =
          .ok (true, { st with table := some { headings := rowCells (pyStrip line), line := st.line } })) ∧
    (∀ (fuel : Nat) (st : PState) (line : String) (tbl : Table),
        st.table = some tbl → pyStartsWith (pyStrip line) "|" = true →
        (rowCells (pyStrip line)).length ≠ tbl.headings.length →
        action_table fuel st line = .error (.raised "Malformed table" st.line)) := by
  refine ⟨?_, ?_, ?_⟩
  · intro language text ft h
    unfold parseFeature at h
    split at h
    · simp at h
    · rename_i st0 hr0
      split at h
      · simp at h
      · rename_i st1 hloop
        split at h
        · rename_i ft0 hfin
          injection h with h
          injection h with h
          subst h
          have hx := finalFeature_rect (inv_parse_loop (inv_reset hr0) hloop) hfin
          exact hx
        · simp at h
  · intro fuel st line htbl hpipe
    unfold action_table
    simp only []
    rw [if_neg (by simp [hpipe]), htbl]
  · intro fuel st line tbl htbl hpipe hlen
    unfold action_table
    simp only []
    rw [if_neg (by simp [hpipe]), htbl]
    simp only []
    rw [if_pos hlen]

/-- Witness for C3: the concrete outline input with a 1-column, 2-row
examples table parses to a feature whose tables are all rectangular; on
the open-table state the first row becomes the headings and a 2-cell row
against 1-column headings raises "Malformed table". -/
theorem c3_witness :
    featureTablesRect { c3Ft [{ line := 4, keyword := "Examples", name := "",
                                table := some c3Tbl }] with parserRefSet := true } = true ∧
    action_table 2 c3S4 "| n |" =
      .ok (true, { c3S4 with table := some { headings := ["n"], line := 4 } }) ∧
    action_table 2 c3S5 "| 1 | 2 |" = .error (.raised "Malformed table" 5) := by
  refine ⟨?_, ?_, ?_⟩
  · refine c3_tables_rectangular.1 none
      "Feature: F\nScenario Outline: S\nGiven <n>\nExamples:\n| n |\n| 1 |\n| 2 |\n" _ ?_
    have hs : pySplitLines
        "Feature: F\nScenario Outline: S\nGiven <n>\nExamples:\n| n |\n| 1 |\n| 2 |\n" =
        ["Feature: F", "Scenario Outline: S", "Given <n>", "Examples:",
         "| n |", "| 1 |", "| 2 |"] := by rfl
    have h1 : parseLine (resetState "en" langEn) "Feature: F" = .ok stF1 := by rfl
    have h2 : parseLine stF1 "Scenario Outline: S" = .ok c3S2 := by rfl
    have h3 : parseLine c3S2 "Given <n>" = .ok c3S3 := by rfl
    have h4 : parseLine c3S3 "Examples:" = .ok c3S4 := by rfl
    have h5 : parseLine c3S4 "| n |" = .ok c3S5 := by rfl
    have h6 : parseLine c3S5 "| 1 |" = .ok c3S6 := by rfl
    have h7 : parseLine c3S6 "| 2 |" = .ok c3S7 := by rfl
    have hr : reset none = .ok (resetState "en" langEn) := by rfl
    have hloop : parse_loop (resetState "en" langEn)
        "Feature: F\nScenario Outline: S\nGiven <n>\nExamples:\n| n |\n| 1 |\n| 2 |\n" =
        .ok c3S8 := by
      unfold parse_loop
      rw [hs]
      simp only [runLines, h1, h2, h3, h4, h5, h6, h7]
      rfl
    simp only [parseFeature, hr, hloop]
    rfl
  · exact c3_tables_rectangular.2.1 2 c3S4 "| n |" rfl rfl
  · exact c3_tables_rectangular.2.2 2 c3S5 "| 1 | 2 |"
      { headings := ["n"], line := 5 } rfl rfl (by decide)

end Behave
